import Mathlib

/-!
# The Prometheus exposition formatter of `metrics/prometheus`

A shallow embedding of `formatter.go` (the seven render routines, the header
cache `normalizeMetric`, `newMetric`, `header`, `keyTagValue`) together with the
standard-library routines the file calls (`strings.Replace`, `fmt.Sprintf` for
the verbs the two templates use), followed by theorems about them.

Conventions.
* A Go `string` / `[]byte` is a finite sequence of bytes; a byte is represented
  by the character carrying the same code, so a Go string is a `List Char`.
* `int64` and `int` values are integers; the conversion to `uint64` made by the
  integer printer is written out with an explicit `% 2 ^ 64`.
* `float64` is an abstract type `F`: the formatter never computes with a float,
  it only passes floats to the snapshot and prints them with `%v`.
* The buffer and the formatter are threaded explicitly; a run-time panic
  (index out of range) is the `Except.error` outcome and carries the state
  reached when the panic happened.
-/

namespace Prometheus

/-- A Go string: its bytes in order. -/
abbrev GoString := List Char

/-! ## `strings` -/

/-- The function `strings.HasPrefix`. -/
def HasPrefix : GoString → GoString → Bool
  | _, [] => true
  | [], _ :: _ => false
  | c :: s, d :: p => c == d && HasPrefix s p

/-- The scanning loop of `strings.Replace` for a non-empty `old`: `skip` counts
the bytes of a matched occurrence still to be dropped, `n` is the number of
replacements still allowed (a negative `n` never reaches zero: no limit). -/
def replaceFrom (old new : GoString) : Nat → Int → GoString → GoString
  | _, _, [] => []
  | k + 1, n, _ :: s => replaceFrom old new k n s
  | 0, n, c :: s =>
    if n ≠ 0 ∧ HasPrefix (c :: s) old = true then
      new ++ replaceFrom old new (old.length - 1) (n - 1) s
    else c :: replaceFrom old new 0 n s

/-- Whether the byte `c` lies between `lo` and `hi`. -/
def byteIn (c : Char) (lo hi : Nat) : Bool :=
  decide (lo ≤ c.toNat) && decide (c.toNat ≤ hi)

/-- The width `utf8.DecodeRuneInString` reports for the start of a non-empty
string: the length of a well-formed UTF-8 sequence (with the ranges the second
byte must lie in after `E0`, `ED`, `F0` and `F4`), and 1 for a byte that starts
none. -/
def runeWidth : GoString → Nat
  | [] => 0
  | c :: rest =>
    if c.toNat < 0xC2 then 1
    else if c.toNat < 0xE0 then
      match rest with
      | b1 :: _ => if byteIn b1 0x80 0xBF then 2 else 1
      | _ => 1
    else if c.toNat < 0xF0 then
      match rest with
      | b1 :: b2 :: _ =>
        if byteIn b1 (if c.toNat = 0xE0 then 0xA0 else 0x80)
              (if c.toNat = 0xED then 0x9F else 0xBF)
            && byteIn b2 0x80 0xBF then 3
        else 1
      | _ => 1
    else if c.toNat < 0xF5 then
      match rest with
      | b1 :: b2 :: b3 :: _ =>
        if byteIn b1 (if c.toNat = 0xF0 then 0x90 else 0x80)
              (if c.toNat = 0xF4 then 0x8F else 0xBF)
            && byteIn b2 0x80 0xBF && byteIn b3 0x80 0xBF then 4
        else 1
      | _ => 1
    else 1

/-- The empty-`old` case of `strings.Replace`: `new` is inserted at the start
and after each UTF-8 sequence, up to `n` times; `skip` counts the bytes of the
current sequence still to be copied. -/
def insertAround (new : GoString) : Nat → Int → GoString → GoString
  | _, n, [] => if n ≠ 0 then new else []
  | k + 1, n, c :: s => c :: insertAround new k n s
  | 0, n, c :: s =>
    if n ≠ 0 then new ++ c :: insertAround new (runeWidth (c :: s) - 1) (n - 1) s
    else c :: s

/-- The function `strings.Replace(s, old, new, n)`: the first `n` non-overlapping
occurrences of `old` are replaced by `new`; all of them when `n < 0`. -/
def Replace (s old new : GoString) (n : Int) : GoString :=
  if old = new ∨ n = 0 then s
  else if old = [] then insertAround new 0 n s
  else replaceFrom old new 0 n s

/-! ## `fmt` -/

/-- The digit table of `fmt`: `ldigits`. -/
def ldigits : GoString := "0123456789abcdefx".toList

/-- The base-10 loop of `fmt.fmtInteger`, writing digits from the end of the
buffer: `for u >= 10 { next := u / 10; buf[i] = '0' + u - next*10; u = next }`
and then `buf[i] = digits[u]`. The fuel bounds the number of iterations. -/
def fmtDigits : Nat → Nat → GoString → GoString
  | 0, _, acc => acc
  | fuel + 1, u, acc =>
    if 10 ≤ u then fmtDigits fuel (u / 10) (Char.ofNat (48 + u - (u / 10) * 10) :: acc)
    else ldigits.getD u '0' :: acc

/-- The function `fmt.fmtInteger` in base 10 with no flags: `u` is the value
converted to `uint64`; a signed value with the top bit set is negated (modulo
`2 ^ 64`) and printed with a leading `-`. A `uint64` has at most 20 digits. -/
def fmtInteger (u : Nat) (isSigned : Bool) : GoString :=
  let negative := isSigned && decide (2 ^ 63 ≤ u)
  let u := if negative then (2 ^ 64 - u) % 2 ^ 64 else u
  let body := fmtDigits 20 u []
  if negative then '-' :: body else body

/-- The conversion `uint64(v)` of a signed integer. -/
def toUint64 (v : Int) : Nat := (v % 2 ^ 64).toNat

/-- The type `float64`, as far as the formatter needs it: the rendering `%v`
gives a float (`strconv` shortest representation). The float literals of the
source are read through `OfScientific`. -/
class Float64 (F : Type) where
  /-- The `%v` rendering of a float. -/
  fmtFloat : F → GoString

/-- The float type of a call that passes no float operand. -/
instance : Float64 Empty := ⟨fun x => nomatch x⟩

/-- A value passed to `fmt.Sprintf` as `interface{}`: the dynamic types the
formatter passes. -/
inductive Value (F : Type) where
  | string (s : GoString)
  | int64 (v : Int)
  | int (v : Int)
  | float64 (x : F)

/-- The Go name of the dynamic type of a value. -/
def Value.typeName {F : Type} : Value F → GoString
  | .string _ => "string".toList
  | .int64 _ => "int64".toList
  | .int _ => "int".toList
  | .float64 _ => "float64".toList

/-- The `%v` rendering of a value. -/
def Value.fmtV {F : Type} [Float64 F] : Value F → GoString
  | .string s => s
  | .int64 v => fmtInteger (toUint64 v) true
  | .int v => fmtInteger (toUint64 v) true
  | .float64 x => Float64.fmtFloat x

/-- The `%s` rendering of a value: a string is copied, any other type is a
bad verb, `%!s(type=value)`. -/
def Value.fmtS {F : Type} [Float64 F] : Value F → GoString
  | .string s => s
  | a => "%!s(".toList ++ a.typeName ++ "=".toList ++ a.fmtV ++ ")".toList

/-- The tail `fmt.Sprintf` adds for operands no verb consumed. -/
def fmtExtra {F : Type} [Float64 F] : List (Value F) → GoString
  | [] => []
  | [a] => a.typeName ++ "=".toList ++ a.fmtV
  | a :: b :: rest => a.typeName ++ "=".toList ++ a.fmtV ++ ", ".toList ++ fmtExtra (b :: rest)

/-- The function `fmt.Sprintf` for format strings whose verbs are `%s`, `%v`
and `%%`, which covers both templates of the formatter. A verb with no operand
left prints `%!verb(MISSING)`; operands left over print `%!(EXTRA ...)`. Any
other character after `%` is outside this model and is copied through. -/
def Sprintf {F : Type} [Float64 F] : GoString → List (Value F) → GoString
  | [], [] => []
  | [], a :: rest => "%!(EXTRA ".toList ++ fmtExtra (a :: rest) ++ ")".toList
  | '%' :: 's' :: t, [] => "%!s(MISSING)".toList ++ Sprintf t ([] : List (Value F))
  | '%' :: 's' :: t, a :: rest => a.fmtS ++ Sprintf t rest
  | '%' :: 'v' :: t, [] => "%!v(MISSING)".toList ++ Sprintf t ([] : List (Value F))
  | '%' :: 'v' :: t, a :: rest => a.fmtV ++ Sprintf t rest
  | '%' :: '%' :: t, args => '%' :: Sprintf t args
  | c :: t, args => c :: Sprintf t args

/-! ## `formatter.go` -/

/-- The constant `metricGauage`. -/
def metricGauage : GoString := "gauage".toList

/-- The constant `metricSummary`. -/
def metricSummary : GoString := "summary".toList

/-- The variable `metricHeaderTemplate`. -/
def metricHeaderTemplate : GoString := "# HELP %s metric\n# TYPE %s %s\n".toList

/-- The variable `metricKeyTagTemplate`. -/
def metricKeyTagTemplate : GoString := "%s\x7bmtype=\"%s\",aggr=\"%s\"\x7d %v\n".toList

/-- The struct `metric`. -/
structure metric where
  key : GoString
  mtype : GoString
  helpTypeHeader : GoString
  deriving DecidableEq, Repr

/-- The function `newMetric`. The header is rendered with no float operand, so
the float type plays no role. -/
def newMetric (mkey mtype : GoString) : metric :=
  let key := Replace mkey "/".toList "_".toList (-1)
  { key := key
    mtype := mtype
    helpTypeHeader :=
      (Sprintf metricHeaderTemplate
        ([Value.string key, Value.string key, Value.string mtype] : List (Value Empty))) }

/-- The method `metric.header`. -/
def metric.header (m : metric) : GoString := m.helpTypeHeader

/-- The method `metric.keyTagValue`. -/
def metric.keyTagValue {F : Type} [Float64 F] (m : metric) (tag : GoString) (value : Value F) :
    GoString :=
  Sprintf metricKeyTagTemplate
    [Value.string m.key, Value.string m.mtype, Value.string tag, value]

/-- A Go `map[string]*metric`: the entries, at most one per key. -/
abbrev MetricMap := List (GoString × metric)

/-- The map read `v, ok := m[k]`. -/
def MetricMap.get (m : MetricMap) (k : GoString) : Option metric :=
  match m with
  | [] => none
  | (k', v) :: rest => if k' = k then some v else MetricMap.get rest k

/-- The map write `m[k] = v`. -/
def MetricMap.set (m : MetricMap) (k : GoString) (v : metric) : MetricMap :=
  match m with
  | [] => [(k, v)]
  | (k', v') :: rest => if k' = k then (k, v) :: rest else (k', v') :: MetricMap.set rest k v

/-- The struct `formatter` (the lock guards the map and carries no data). -/
structure formatter where
  metrics : MetricMap
  deriving DecidableEq, Repr

/-- The function `newFormatter`. -/
def newFormatter : formatter := { metrics := [] }

/-- The method `formatter.normalizeMetric`, run without interleaving: the
lookup under the read lock, the construction, the second lookup under the write
lock and the insertion. Returns the metric and the formatter afterwards. -/
def formatter.normalizeMetric (f : formatter) (mkey mtype : GoString) : metric × formatter :=
  match f.metrics.get mkey with
  | some m => (m, f)
  | none =>
    let m := newMetric mkey mtype
    match f.metrics.get mkey with
    | some m' => (m', f)
    | none => (m, { f with metrics := f.metrics.set mkey m })

/-- The state a render routine works on: the formatter and the buffer `b`. -/
structure State where
  f : formatter
  b : GoString
  deriving DecidableEq, Repr

/-- The call `b.Write(p)`. -/
def State.Write (st : State) (p : GoString) : State := { st with b := st.b ++ p }

/-- An outcome of a render routine: `ok st` when it returns, `error st` when it
panics with the state `st` reached so far. -/
abbrev Outcome := Except State State

/-- The index expression `xs[i]`: a panic when `i` is out of range. -/
def index {α : Type} (st : State) (xs : List α) (i : Nat) : Except State α :=
  match xs.get? i with
  | some x => .ok x
  | none => .error st

/-! ### Snapshots

Modelled from the spec: the snapshot interfaces of the `metrics` package
(`Counter`, `Gauge`, `GaugeFloat64`, `Histogram`, `Meter`, `Timer`,
`ResettingTimer`) are not among the sources; a snapshot is the record of what
its methods return, with the fields of section 3 of the specification. -/

/-- Modelled from the spec: a counter snapshot, `Count() int64`. -/
structure Counter where
  Count : Int

/-- Modelled from the spec: a gauge snapshot, `Value() int64`. -/
structure Gauge where
  Value : Int

/-- Modelled from the spec: a float-gauge snapshot, `Value() float64`. -/
structure GaugeFloat64 (F : Type) where
  Value : F

/-- Modelled from the spec: a histogram snapshot: count, min, max (integers),
mean, stddev, variance (floats) and the percentile function. -/
structure Histogram (F : Type) where
  Count : Int
  Max : Int
  Mean : F
  Min : Int
  StdDev : F
  Variance : F
  Percentiles : List F → List F

/-- Modelled from the spec: a meter snapshot: count and the four rates. -/
structure Meter (F : Type) where
  Count : Int
  Rate1 : F
  Rate5 : F
  Rate15 : F
  RateMean : F

/-- Modelled from the spec: a timer snapshot: the histogram fields and the
meter fields. -/
structure Timer (F : Type) where
  Count : Int
  Max : Int
  Mean : F
  Min : Int
  StdDev : F
  Variance : F
  Percentiles : List F → List F
  Rate1 : F
  Rate5 : F
  Rate15 : F
  RateMean : F

/-- Modelled from the spec: a resetting-timer snapshot: the recorded values
(integers), their mean, and the percentile function over a 0-100 scale, whose
results are integers like the values. -/
structure ResettingTimer (F : Type) where
  Values : List Int
  Mean : F
  Percentiles : List F → List Int

/-! ### The render routines

Each routine takes the formatter (its receiver), the buffer `b`, the metric
name and the snapshot, and gives the state afterwards. The routines that index
a slice give an `Outcome`. -/

/-- The method `formatter.counter`. -/
def formatter.counter (f : formatter) (b : GoString) (name : GoString) (m : Counter) : State :=
  let (pm, f) := f.normalizeMetric name metricGauage
  let st : State := { f := f, b := b }
  let st := st.Write pm.header
  st.Write (pm.keyTagValue "value".toList (Value.int64 m.Count : Value Empty))

/-- The method `formatter.gauge`. -/
def formatter.gauge (f : formatter) (b : GoString) (name : GoString) (m : Gauge) : State :=
  let (pm, f) := f.normalizeMetric name metricGauage
  let st : State := { f := f, b := b }
  let st := st.Write pm.header
  st.Write (pm.keyTagValue "value".toList (Value.int64 m.Value : Value Empty))

/-- The method `formatter.gaugeFloat64`. -/
def formatter.gaugeFloat64 {F : Type} [Float64 F] (f : formatter) (b : GoString)
    (name : GoString) (m : GaugeFloat64 F) : State :=
  let (pm, f) := f.normalizeMetric name metricGauage
  let st : State := { f := f, b := b }
  let st := st.Write pm.header
  st.Write (pm.keyTagValue "value".toList (Value.float64 m.Value))

/-- The method `formatter.histogram`. -/
def formatter.histogram {F : Type} [Float64 F] [OfScientific F] (f : formatter) (b : GoString)
    (name : GoString) (m : Histogram F) : Outcome :=
  let (pm, f) := f.normalizeMetric name metricSummary
  let st : State := { f := f, b := b }
  let ps := m.Percentiles [0.5, 0.75, 0.95, 0.99, 0.999, 0.9999]
  let st := st.Write pm.header
  let st := st.Write (pm.keyTagValue "count".toList (Value.int64 m.Count : Value F))
  let st := st.Write (pm.keyTagValue "max".toList (Value.int64 m.Max : Value F))
  let st := st.Write (pm.keyTagValue "mean".toList (Value.float64 m.Mean))
  let st := st.Write (pm.keyTagValue "min".toList (Value.int64 m.Min : Value F))
  let st := st.Write (pm.keyTagValue "stddev".toList (Value.float64 m.StdDev))
  let st := st.Write (pm.keyTagValue "variance".toList (Value.float64 m.Variance))
  (index st ps 0).bind fun p =>
  let st := st.Write (pm.keyTagValue "p50".toList (Value.float64 p))
  (index st ps 1).bind fun p =>
  let st := st.Write (pm.keyTagValue "p75".toList (Value.float64 p))
  (index st ps 2).bind fun p =>
  let st := st.Write (pm.keyTagValue "p95".toList (Value.float64 p))
  (index st ps 3).bind fun p =>
  let st := st.Write (pm.keyTagValue "p99".toList (Value.float64 p))
  (index st ps 4).bind fun p =>
  let st := st.Write (pm.keyTagValue "p999".toList (Value.float64 p))
  (index st ps 5).bind fun p =>
  let st := st.Write (pm.keyTagValue "p9999".toList (Value.float64 p))
  .ok st

/-- The method `formatter.meter`. -/
def formatter.meter {F : Type} [Float64 F] (f : formatter) (b : GoString)
    (name : GoString) (m : Meter F) : State :=
  let (pm, f) := f.normalizeMetric name metricGauage
  let st : State := { f := f, b := b }
  let st := st.Write pm.header
  let st := st.Write (pm.keyTagValue "count".toList (Value.int64 m.Count : Value F))
  let st := st.Write (pm.keyTagValue "m1".toList (Value.float64 m.Rate1))
  let st := st.Write (pm.keyTagValue "m5".toList (Value.float64 m.Rate5))
  let st := st.Write (pm.keyTagValue "m15".toList (Value.float64 m.Rate15))
  st.Write (pm.keyTagValue "mean".toList (Value.float64 m.RateMean))

/-- The method `formatter.timer`. -/
def formatter.timer {F : Type} [Float64 F] [OfScientific F] (f : formatter) (b : GoString)
    (name : GoString) (m : Timer F) : Outcome :=
  let (pm, f) := f.normalizeMetric name metricSummary
  let st : State := { f := f, b := b }
  let ps := m.Percentiles [0.5, 0.75, 0.95, 0.99, 0.999, 0.9999]
  let st := st.Write pm.header
  let st := st.Write (pm.keyTagValue "count".toList (Value.int64 m.Count : Value F))
  let st := st.Write (pm.keyTagValue "max".toList (Value.int64 m.Max : Value F))
  let st := st.Write (pm.keyTagValue "mean".toList (Value.float64 m.Mean))
  let st := st.Write (pm.keyTagValue "min".toList (Value.int64 m.Min : Value F))
  let st := st.Write (pm.keyTagValue "stddev".toList (Value.float64 m.StdDev))
  let st := st.Write (pm.keyTagValue "variance".toList (Value.float64 m.Variance))
  (index st ps 0).bind fun p =>
  let st := st.Write (pm.keyTagValue "p50".toList (Value.float64 p))
  (index st ps 1).bind fun p =>
  let st := st.Write (pm.keyTagValue "p75".toList (Value.float64 p))
  (index st ps 2).bind fun p =>
  let st := st.Write (pm.keyTagValue "p95".toList (Value.float64 p))
  (index st ps 3).bind fun p =>
  let st := st.Write (pm.keyTagValue "p99".toList (Value.float64 p))
  (index st ps 4).bind fun p =>
  let st := st.Write (pm.keyTagValue "p999".toList (Value.float64 p))
  (index st ps 5).bind fun p =>
  let st := st.Write (pm.keyTagValue "p9999".toList (Value.float64 p))
  let st := st.Write (pm.keyTagValue "m1".toList (Value.float64 m.Rate1))
  let st := st.Write (pm.keyTagValue "m5".toList (Value.float64 m.Rate5))
  let st := st.Write (pm.keyTagValue "m15".toList (Value.float64 m.Rate15))
  let st := st.Write (pm.keyTagValue "meanrate".toList (Value.float64 m.RateMean))
  .ok st

/-- The method `formatter.resettingTimer`. The untyped constants `50`, `95`,
`99` of the request are floats. -/
def formatter.resettingTimer {F : Type} [Float64 F] [OfScientific F] (f : formatter)
    (b : GoString) (name : GoString) (m : ResettingTimer F) : Outcome :=
  let st : State := { f := f, b := b }
  if m.Values.length ≤ 0 then .ok st
  else
    let ps := m.Percentiles [50.0, 95.0, 99.0]
    let val := m.Values
    let (pm, f) := f.normalizeMetric name metricSummary
    let st : State := { f := f, b := b }
    let st := st.Write pm.header
    let st := st.Write (pm.keyTagValue "count".toList (Value.int (val.length : Int) : Value F))
    (index st val (val.length - 1)).bind fun x =>
    let st := st.Write (pm.keyTagValue "max".toList (Value.int64 x : Value F))
    let st := st.Write (pm.keyTagValue "mean".toList (Value.float64 m.Mean))
    (index st val 0).bind fun x =>
    let st := st.Write (pm.keyTagValue "min".toList (Value.int64 x : Value F))
    (index st ps 0).bind fun p =>
    let st := st.Write (pm.keyTagValue "p50".toList (Value.int64 p : Value F))
    (index st ps 1).bind fun p =>
    let st := st.Write (pm.keyTagValue "p95".toList (Value.int64 p : Value F))
    (index st ps 2).bind fun p =>
    let st := st.Write (pm.keyTagValue "p99".toList (Value.int64 p : Value F))
    .ok st

/-! ## The specification side

Definitions that follow the words of the specification; the theorems compare
the code with them. -/

/-- Specification of `sanitize`: every `/` of the name becomes `_`, position by
position. -/
def sanitize (name : GoString) : GoString :=
  name.map fun c => if c = '/' then '_' else c

/-- The base-10 digits of a natural number, most significant first; `0` is the
single digit `0`. -/
def decimalNat (n : Nat) : GoString :=
  if n = 0 then ['0'] else (Nat.digits 10 n).reverse.map fun d => Char.ofNat (48 + d)

/-- The base-10 representation of an integer, with a leading `-` when it is
negative. -/
def decimal (v : Int) : GoString :=
  if v < 0 then '-' :: decimalNat v.natAbs else decimalNat v.natAbs

/-- A value that fits a signed 64-bit integer. -/
def isInt64 (v : Int) : Prop := -2 ^ 63 ≤ v ∧ v < 2 ^ 63

instance (v : Int) : Decidable (isInt64 v) := by unfold isInt64; infer_instance

/-- The wire format's header block: `# HELP <key> metric` and
`# TYPE <key> <type>`, each ended by a newline. -/
def wireHeader (key type : GoString) : GoString :=
  "# HELP ".toList ++ key ++ " metric\n# TYPE ".toList ++ key ++ " ".toList ++ type ++ "\n".toList

/-- The wire format's value line: `<key>{mtype="<type>",aggr="<tag>"} <value>`
ended by a newline. -/
def wireLine (key type tag value : GoString) : GoString :=
  key ++ "\x7bmtype=\"".toList ++ type ++ "\",aggr=\"".toList ++ tag ++ "\"\x7d ".toList ++ value
    ++ "\n".toList

/-- The wire format's block for one metric: the header block, then one value
line per (tag, value) pair, in order. -/
def wireBlock (key type : GoString) (fields : List (String × GoString)) : GoString :=
  wireHeader key type ++ (fields.map fun p => wireLine key type p.1.toList p.2).flatten

/-- An exact-rational stand-in for `float64`, printed as `num/den`; it
instantiates the development at concrete inputs. -/
instance : Float64 ℚ :=
  ⟨fun q => fmtInteger (toUint64 q.num) true ++ "/".toList ++ fmtInteger (toUint64 q.den) false⟩

/-- The histogram statistics of a timer snapshot: the fields a timer shares
with a histogram. -/
def Timer.histogramPart {F : Type} (m : Timer F) : Histogram F :=
  { Count := m.Count, Max := m.Max, Mean := m.Mean, Min := m.Min, StdDev := m.StdDev,
    Variance := m.Variance, Percentiles := m.Percentiles }

/-- A histogram snapshot over the rational stand-in whose percentile function
answers each request with the requested rank itself. -/
def sampleHistogram : Histogram ℚ :=
  { Count := 3, Max := 7, Mean := 4, Min := -2, StdDev := 1, Variance := 1,
    Percentiles := fun qs => qs }

/-- A timer snapshot over the rational stand-in. -/
def sampleTimer : Timer ℚ :=
  { Count := 3, Max := 7, Mean := 4, Min := -2, StdDev := 1, Variance := 1,
    Percentiles := fun qs => qs, Rate1 := 1, Rate5 := 2, Rate15 := 3, RateMean := 5 }

/-- The resetting-timer snapshot of the specification's example: values
`[1,2,2,5,9]`, mean 3.8, percentiles 2, 9, 9. -/
def sampleResettingTimer : ResettingTimer ℚ :=
  { Values := [1, 2, 2, 5, 9], Mean := 3.8, Percentiles := fun _ => [2, 9, 9] }

/-- A resetting-timer snapshot with no recorded value. -/
def emptyResettingTimer : ResettingTimer ℚ :=
  { Values := [], Mean := 0, Percentiles := fun qs => qs.map fun _ => 0 }

/-- The block a metric key renders: its header, then one value line per
(tag, value) pair, in order. -/
def metricBlock {F : Type} [Float64 F] (pm : metric) (fields : List (String × Value F)) :
    GoString :=
  pm.header ++ (fields.map fun p => pm.keyTagValue p.1.toList p.2).flatten

/-- Two calls in sequence of a render routine, the second on the formatter and
the buffer the first left: both return, each appends the block `blk`, and the
second leaves the formatter as the first left it. -/
def rendersTwice (render : formatter → GoString → Outcome) (f : formatter)
    (b blk : GoString) : Prop :=
  ∃ st1 st2, render f b = .ok st1 ∧ render st1.f st1.b = .ok st2 ∧
    st1.b = b ++ blk ∧ st2.b = st1.b ++ blk ∧ st2.f = st1.f

/-! ## `server.go` -/

/-- A value registered under a name, by the case of the type switch of
`handler` it falls in: one of the seven metric interfaces, carrying what
`m.Snapshot()` returns, or a value of another type. The seven interfaces have
no common implementation (their `Snapshot` methods return different types), so
the order of the cases plays no role. -/
inductive Metric (F : Type) where
  | counter (m : Counter)
  | gauge (m : Gauge)
  | gaugeFloat64 (m : GaugeFloat64 F)
  | histogram (m : Histogram F)
  | meter (m : Meter F)
  | timer (m : Timer F)
  | resettingTimer (m : ResettingTimer F)
  | other

/-- The closure `handler` passes to `reg.Each`: the type switch. -/
def renderEntry {F : Type} [Float64 F] [OfScientific F] (f : formatter) (buf : GoString)
    (name : GoString) (i : Metric F) : Outcome :=
  match i with
  | .counter ms => .ok (f.counter buf name ms)
  | .gauge ms => .ok (f.gauge buf name ms)
  | .gaugeFloat64 ms => .ok (f.gaugeFloat64 buf name ms)
  | .histogram ms => f.histogram buf name ms
  | .meter ms => .ok (f.meter buf name ms)
  | .timer ms => f.timer buf name ms
  | .resettingTimer ms => f.resettingTimer buf name ms
  | .other => .ok { f := f, b := buf }

/-- Modelled from the spec: `Registry.Each`, the iteration primitive of the
registry, is not among the sources; the registry is the finite sequence of
(name, metric) pairs the iteration yields, and the function is called on each
in order. A panic in a call ends the iteration. -/
def Each {F : Type} [Float64 F] [OfScientific F] (st : State) :
    List (GoString × Metric F) → Outcome
  | [] => .ok st
  | (name, i) :: rest =>
    match renderEntry st.f st.b name i with
    | .ok st' => Each st' rest
    | .error st' => .error st'

/-- What the handler hands to the `http.ResponseWriter`: the header fields it
adds and the body it writes. -/
structure Response where
  header : List (GoString × GoString)
  body : GoString
  deriving DecidableEq, Repr

/-- The `http.HandlerFunc` that `handler` returns, run on the formatter `f` it
shares between requests (`newFormatter()` at first): the buffer taken from the
pool is empty (`giveBuf` resets it), every registry entry is rendered into it,
and the response carries the buffer with its length. Returns the formatter
afterwards and the response; a panic leaves no response. -/
def handler {F : Type} [Float64 F] [OfScientific F] (f : formatter)
    (reg : List (GoString × Metric F)) : Except State (formatter × Response) :=
  match Each { f := f, b := [] } reg with
  | .error st => .error st
  | .ok st =>
    .ok (st.f,
      { header :=
          [("Content-Type".toList, "text/plain".toList),
           ("Content-Length".toList, fmtInteger (toUint64 (st.b.length : Int)) true)]
        body := st.b })

/-! ## Sequences of calls on one formatter -/

/-- A call on the formatter: `normalizeMetric` with a name and a declared type,
or the render routine of a registered metric. -/
inductive Op (F : Type) where
  | normalize (mkey mtype : GoString)
  | render (name : GoString) (i : Metric F)

/-- The state a call leaves, whether it returned or panicked. -/
def Outcome.state (o : Outcome) : State :=
  match o with
  | .ok st => st
  | .error st => st

/-- Whether a call returned. -/
def Outcome.returned (o : Outcome) : Bool :=
  match o with
  | .ok _ => true
  | .error _ => false

/-- The state after a call, whether it returned or panicked (a panic in a
request is recovered by the server and the formatter lives on). -/
def Op.apply {F : Type} [Float64 F] [OfScientific F] (st : State) (op : Op F) : State :=
  match op with
  | .normalize mkey mtype => { st with f := (st.f.normalizeMetric mkey mtype).2 }
  | .render name i => (renderEntry st.f st.b name i).state

/-- The state after a sequence of calls. -/
def runOps {F : Type} [Float64 F] [OfScientific F] (st : State) (ops : List (Op F)) : State :=
  ops.foldl Op.apply st

/-- The declared type the render routine of a registered metric passes to
`normalizeMetric`: `gauage` for counter, gauge, float gauge and meter, `summary`
for histogram, timer and resetting timer; none when the routine does not get
that far (a resetting timer with no value) or there is no routine (a value of
another type). -/
def Metric.declared {F : Type} : Metric F → Option GoString
  | .counter _ => some metricGauage
  | .gauge _ => some metricGauage
  | .gaugeFloat64 _ => some metricGauage
  | .histogram _ => some metricSummary
  | .meter _ => some metricGauage
  | .timer _ => some metricSummary
  | .resettingTimer m => if m.Values.length ≤ 0 then none else some metricSummary
  | .other => none

/-- The name and declared type a call passes to `normalizeMetric`, if it gets
that far: a resetting timer with no value and a value of another type resolve
nothing. -/
def Op.resolves {F : Type} : Op F → Option (GoString × GoString)
  | .normalize mkey mtype => some (mkey, mtype)
  | .render name i => i.declared.map fun t => (name, t)

/-! ## Concurrent calls of `normalizeMetric`

The reader/writer lock makes the two locked sections of `normalizeMetric`
atomic; `newMetric` runs between them, outside any lock. A concurrent run is an
interleaving of these three steps of each call. -/

/-- Where a call of `normalizeMetric` stands: before the read-locked lookup,
after a miss, after `newMetric`, or returned with its result. -/
inductive Pc where
  | start
  | missed
  | built (m : metric)
  | done (m : metric)
  deriving DecidableEq, Repr

/-- A call of `normalizeMetric`: its arguments, where it stands, and how many
times it has run `newMetric` (the counting constructor stub). -/
structure Call where
  mkey : GoString
  mtype : GoString
  pc : Pc
  news : Nat
  deriving DecidableEq, Repr

/-- A call about to start. -/
def Call.init (mkey mtype : GoString) : Call :=
  { mkey := mkey, mtype := mtype, pc := .start, news := 0 }

/-- One step of a call on the shared map: the lookup under `RLock`, then
`newMetric`, then the lookup-or-insert under `Lock`. A returned call stays. -/
def Call.step (ms : MetricMap) (c : Call) : MetricMap × Call :=
  match c.pc with
  | .start =>
    match ms.get c.mkey with
    | some m => (ms, { c with pc := .done m })
    | none => (ms, { c with pc := .missed })
  | .missed => (ms, { c with pc := .built (newMetric c.mkey c.mtype), news := c.news + 1 })
  | .built m =>
    match ms.get c.mkey with
    | some m' => (ms, { c with pc := .done m' })
    | none => (ms.set c.mkey m, { c with pc := .done m })
  | .done _ => (ms, c)

/-- The shared map and the calls in flight. -/
structure Sys where
  metrics : MetricMap
  calls : List Call
  deriving DecidableEq, Repr

/-- The scheduler lets call number `i` take its next step. -/
def Sys.step (s : Sys) (i : Nat) : Sys :=
  match s.calls[i]? with
  | none => s
  | some c => { metrics := (c.step s.metrics).1, calls := s.calls.set i (c.step s.metrics).2 }

/-- A run under a schedule: the calls step in the order the schedule names. -/
def Sys.run (s : Sys) (sched : List Nat) : Sys :=
  sched.foldl Sys.step s

/-- The number of metric keys constructed so far, over all calls. -/
def Sys.constructed (s : Sys) : Nat :=
  (s.calls.map fun c => c.news).sum

/-- A resetting-timer snapshot with a single value, whose percentile function
returns one result per request. -/
def singleResettingTimer : ResettingTimer ℚ :=
  { Values := [7], Mean := 7, Percentiles := fun qs => qs.map fun _ => 7 }

/-- A histogram snapshot whose percentile function returns only three
results. -/
def shortHistogram : Histogram ℚ :=
  { Count := 3, Max := 7, Mean := 4, Min := -2, StdDev := 1, Variance := 1,
    Percentiles := fun qs => qs.take 3 }

/-- The six statistic fields of a histogram block, before its percentiles. -/
def Histogram.statFields {F : Type} (m : Histogram F) : List (String × Value F) :=
  [("count", Value.int64 m.Count), ("max", Value.int64 m.Max), ("mean", Value.float64 m.Mean),
   ("min", Value.int64 m.Min), ("stddev", Value.float64 m.StdDev),
   ("variance", Value.float64 m.Variance)]

/-- The percentile fields of a histogram or timer block: the tags p50, p75,
p95, p99, p999, p9999 paired in order with the results, as far as both go. -/
def percentileFields {F : Type} (ps : List F) : List (String × Value F) :=
  List.zipWith (fun t p => (t, Value.float64 p)) ["p50", "p75", "p95", "p99", "p999", "p9999"] ps

/-- The four rate fields that end a timer block. -/
def Timer.rateFields {F : Type} (m : Timer F) : List (String × Value F) :=
  [("m1", Value.float64 m.Rate1), ("m5", Value.float64 m.Rate5),
   ("m15", Value.float64 m.Rate15), ("meanrate", Value.float64 m.RateMean)]

/-- The first four fields of a resetting-timer block: the number of values,
the last value, the mean and the first value. -/
def ResettingTimer.headFields {F : Type} (m : ResettingTimer F) (hne : m.Values ≠ []) :
    List (String × Value F) :=
  [("count", Value.int (m.Values.length : Int)), ("max", Value.int64 (m.Values.getLast hne)),
   ("mean", Value.float64 m.Mean), ("min", Value.int64 (m.Values.head hne))]

/-- The percentile fields of a resetting-timer block: the tags p50, p95, p99
paired in order with the results, as far as both go. -/
def resettingPercentileFields {F : Type} (ps : List Int) : List (String × Value F) :=
  List.zipWith (fun t p => (t, Value.int64 p)) ["p50", "p95", "p99"] ps

/-- An outcome by its two parts: whether the call returned, and the state. -/
def Outcome.mk (returned : Bool) (st : State) : Outcome :=
  if returned then .ok st else .error st

/-- The fields of the value lines a render routine writes for a registered
metric, in order, up to the point where it returns or panics. -/
def Metric.fields {F : Type} [OfScientific F] : Metric F → List (String × Value F)
  | .counter m => [("value", Value.int64 m.Count)]
  | .gauge m => [("value", Value.int64 m.Value)]
  | .gaugeFloat64 m => [("value", Value.float64 m.Value)]
  | .histogram m =>
    m.statFields ++ percentileFields (m.Percentiles [0.5, 0.75, 0.95, 0.99, 0.999, 0.9999])
  | .meter m =>
    [("count", Value.int64 m.Count), ("m1", Value.float64 m.Rate1),
     ("m5", Value.float64 m.Rate5), ("m15", Value.float64 m.Rate15),
     ("mean", Value.float64 m.RateMean)]
  | .timer m =>
    m.histogramPart.statFields
      ++ percentileFields (m.Percentiles [0.5, 0.75, 0.95, 0.99, 0.999, 0.9999])
      ++ if 6 ≤ (m.Percentiles [0.5, 0.75, 0.95, 0.99, 0.999, 0.9999]).length
          then m.rateFields else []
  | .resettingTimer m =>
    if hne : m.Values ≠ [] then
      m.headFields hne ++ resettingPercentileFields (m.Percentiles [50.0, 95.0, 99.0])
    else []
  | .other => []

/-- Whether the render routine of a registered metric returns: a histogram or
timer needs six percentile results, a resetting timer with values needs three. -/
def Metric.returns {F : Type} [OfScientific F] : Metric F → Bool
  | .histogram m => decide (6 ≤ (m.Percentiles [0.5, 0.75, 0.95, 0.99, 0.999, 0.9999]).length)
  | .timer m => decide (6 ≤ (m.Percentiles [0.5, 0.75, 0.95, 0.99, 0.999, 0.9999]).length)
  | .resettingTimer m =>
    decide (m.Values = []) || decide (3 ≤ (m.Percentiles [50.0, 95.0, 99.0]).length)
  | _ => true

/-- The formatter after the render routine of a registered metric: the name is
resolved with the declared type of the kind, if the routine resolves it. -/
def Metric.after {F : Type} (i : Metric F) (f : formatter) (name : GoString) : formatter :=
  match i.declared with
  | none => f
  | some t => (f.normalizeMetric name t).2

/-- The bytes the render routine of a registered metric appends: the block of
the metric key the name resolves to, or nothing if the routine resolves
nothing. -/
def Metric.block {F : Type} [Float64 F] [OfScientific F] (i : Metric F) (f : formatter)
    (name : GoString) : GoString :=
  match i.declared with
  | none => []
  | some t => metricBlock (f.normalizeMetric name t).1 i.fields

/-- The registry contract on the percentile function: as many results as
requested. -/
def Metric.meetsContract {F : Type} : Metric F → Prop
  | .histogram m => ∀ req, (m.Percentiles req).length = req.length
  | .timer m => ∀ req, (m.Percentiles req).length = req.length
  | .resettingTimer m => ∀ req, (m.Percentiles req).length = req.length
  | _ => True

/-- The bytes one registry entry contributes to a scrape: what the render
routine matching its kind appends to an empty buffer; nothing for a value of
another type. -/
def entryBytes {F : Type} [Float64 F] [OfScientific F] (f : formatter) (name : GoString)
    (i : Metric F) : GoString :=
  match i with
  | .counter m => (f.counter [] name m).b
  | .gauge m => (f.gauge [] name m).b
  | .gaugeFloat64 m => (f.gaugeFloat64 [] name m).b
  | .histogram m => (f.histogram [] name m).state.b
  | .meter m => (f.meter [] name m).b
  | .timer m => (f.timer [] name m).state.b
  | .resettingTimer m => (f.resettingTimer [] name m).state.b
  | .other => []

/-- The formatter one registry entry leaves: what the render routine matching
its kind leaves; the formatter as it was for a value of another type. -/
def entryCache {F : Type} [Float64 F] [OfScientific F] (f : formatter) (name : GoString)
    (i : Metric F) : formatter :=
  match i with
  | .counter m => (f.counter [] name m).f
  | .gauge m => (f.gauge [] name m).f
  | .gaugeFloat64 m => (f.gaugeFloat64 [] name m).f
  | .histogram m => (f.histogram [] name m).state.f
  | .meter m => (f.meter [] name m).f
  | .timer m => (f.timer [] name m).state.f
  | .resettingTimer m => (f.resettingTimer [] name m).state.f
  | .other => f

/-- The body of a scrape as the specification words it: the bytes of each
entry, in iteration order, each rendered on the formatter the entries before it
left. -/
def scrapeBody {F : Type} [Float64 F] [OfScientific F] (f : formatter) :
    List (GoString × Metric F) → GoString
  | [] => []
  | (name, i) :: rest => entryBytes f name i ++ scrapeBody (entryCache f name i) rest

/-- The formatter a scrape leaves. -/
def scrapeCache {F : Type} [Float64 F] [OfScientific F] (f : formatter) :
    List (GoString × Metric F) → formatter
  | [] => f
  | (name, i) :: rest => scrapeCache (entryCache f name i) rest

/-- A meter snapshot over the rational stand-in. -/
def sampleMeter : Meter ℚ :=
  { Count := 12, Rate1 := 1, Rate5 := 2, Rate15 := 3, RateMean := 5 }

/-- A registry of four entries: a counter, a value of another type, a
resetting timer with no value, and a histogram. -/
def sampleRegistry : List (GoString × Metric ℚ) :=
  [("db/reads".toList, .counter { Count := 42 }), ("health".toList, .other),
   ("rt".toList, .resettingTimer emptyResettingTimer), ("h".toList, .histogram sampleHistogram)]

/-- What holds of a call at each point: it has run `newMetric` not at all
before the construction, once right after it, and at most once when it has
returned. -/
def Call.ok (c : Call) : Prop :=
  match c.pc with
  | .start => c.news = 0
  | .missed => c.news = 0
  | .built _ => c.news = 1
  | .done _ => c.news ≤ 1

/-- Two concurrent calls for the name `a`, both about to start, on an empty
cache. -/
def twoCalls : Sys :=
  { metrics := [], calls := [Call.init "a".toList metricGauage, Call.init "a".toList metricGauage] }

/-- The invariant of a concurrent run that started from the map `ms0` with `n`
calls: the calls are as many as at the start and each is as `Call.ok` says; a
returned call holds the metric the map stores under its name; what the map
stored at the start it still stores; and a name the map did not store at the
start is stored only once some call has constructed a metric. -/
structure SysInv (ms0 : MetricMap) (n : Nat) (s : Sys) : Prop where
  len : s.calls.length = n
  ok : ∀ c ∈ s.calls, c.ok
  done : ∀ c ∈ s.calls, ∀ m, c.pc = .done m → s.metrics.get c.mkey = some m
  mono : ∀ k m, ms0.get k = some m → s.metrics.get k = some m
  built : ∀ k, ms0.get k = none → s.metrics.get k ≠ none → ∃ c ∈ s.calls, 1 ≤ c.news

/-- A concurrent run: one call of `normalizeMetric` per (name, declared type)
pair, all about to start on the map `ms0`, stepped as the schedule says. -/
def concurrentRun (ms0 : MetricMap) (args : List (GoString × GoString)) (sched : List Nat) :
    Sys :=
  Sys.run { metrics := ms0, calls := args.map fun a => Call.init a.1 a.2 } sched

/-- A cache entry stored under the raw name `n` agrees with itself: its key is
the sanitized name, its type is one of the two declared types, and its header
bytes are the header block of that key and that type. -/
def metric.consistent (n : GoString) (m : metric) : Prop :=
  m.key = sanitize n ∧ (m.mtype = "gauage".toList ∨ m.mtype = "summary".toList) ∧
    m.helpTypeHeader = wireHeader m.key m.mtype

/-- A call as the package makes it: `normalizeMetric` is passed one of the two
declared types, `metricGauage` or `metricSummary`. -/
def Op.declaredOk {F : Type} : Op F → Prop
  | .normalize _ mtype => mtype = metricGauage ∨ mtype = metricSummary
  | .render _ _ => True

/-- The calls of the running examples: the counter `db/reads` is rendered. -/
def warmUp : List (Op ℚ) :=
  [.render "db/reads".toList (.counter { Count := 42 })]

/-- The calls of the running examples: the name `db/reads` is then resolved as
a summary and rendered as a histogram. -/
def laterCalls : List (Op ℚ) :=
  [.normalize "db/reads".toList metricSummary,
   .render "db/reads".toList (.histogram sampleHistogram)]

/-! ## Lemmas on the library routines -/

theorem HasPrefix_single (c a : Char) (s : GoString) : HasPrefix (c :: s) [a] = (c == a) := by
  cases s <;> simp [HasPrefix]

theorem replaceFrom_single (a b : Char) (s : GoString) (n : Int) (hn : n < 0) :
    replaceFrom [a] [b] 0 n s = s.map fun c => if c = a then b else c := by
  induction s generalizing n with
  | nil => simp [replaceFrom]
  | cons c s ih =>
    have hn' : n - 1 < 0 := by omega
    have h0 : n ≠ 0 := by omega
    by_cases hc : c = a
    · simp [replaceFrom, HasPrefix_single, hc, h0, ih (n - 1) hn']
    · simp [replaceFrom, HasPrefix_single, hc, h0, ih n hn]

theorem Replace_slash (s : GoString) :
    Replace s "/".toList "_".toList (-1) = sanitize s := by
  have h := replaceFrom_single '/' '_' s (-1) (by decide)
  simpa [Replace, sanitize] using h

theorem digit_char (d : Nat) (hd : d < 10) : ldigits.getD d '0' = Char.ofNat (48 + d) := by
  interval_cases d <;> rfl

theorem decimalNat_small (u : Nat) (hu : u < 10) : decimalNat u = [Char.ofNat (48 + u)] := by
  unfold decimalNat
  by_cases h0 : u = 0
  · subst h0; rfl
  · simp [h0, Nat.digits_of_lt 10 u h0 hu]

theorem decimalNat_step (u : Nat) (hu : 10 ≤ u) :
    decimalNat u = decimalNat (u / 10) ++ [Char.ofNat (48 + u % 10)] := by
  have h0 : u ≠ 0 := by omega
  have h1 : u / 10 ≠ 0 := by omega
  unfold decimalNat
  rw [if_neg h0, if_neg h1, Nat.digits_def' (by norm_num) (by omega)]
  simp

theorem fmtDigits_eq (fuel u : Nat) (acc : GoString) (hfuel : 0 < fuel) (hu : u < 10 ^ fuel) :
    fmtDigits fuel u acc = decimalNat u ++ acc := by
  induction fuel generalizing u acc with
  | zero => omega
  | succ k ih =>
    unfold fmtDigits
    by_cases h : 10 ≤ u
    · have hk : 0 < k := by
        rcases Nat.eq_zero_or_pos k with hk | hk
        · subst hk; simp at hu; omega
        · exact hk
      have hlt : u / 10 < 10 ^ k := by
        rw [Nat.div_lt_iff_lt_mul (by norm_num)]
        rw [pow_succ] at hu
        exact hu
      have hd : 48 + u - u / 10 * 10 = 48 + u % 10 := by omega
      rw [if_pos h, ih (u / 10) _ hk hlt, decimalNat_step u h, hd]
      simp
    · have hu10 : u < 10 := by omega
      rw [if_neg h, digit_char u hu10, decimalNat_small u hu10]
      simp

theorem fmtInteger_signed (v : Int) (hv : isInt64 v) :
    fmtInteger (toUint64 v) true = decimal v := by
  obtain ⟨hlo, hhi⟩ := hv
  unfold fmtInteger toUint64 decimal
  by_cases hneg : v < 0
  · have h1 : (2 : Nat) ^ 63 ≤ (v % 2 ^ 64).toNat := by omega
    have h2 : (2 ^ 64 - (v % 2 ^ 64).toNat) % 2 ^ 64 = v.natAbs := by omega
    have h3 : v.natAbs < 10 ^ 20 := by omega
    simp only [Bool.true_and, decide_eq_true_eq, h1, if_true, h2, hneg]
    rw [fmtDigits_eq 20 _ [] (by norm_num) h3]
    simp
  · have h1 : ¬ (2 : Nat) ^ 63 ≤ v.natAbs := by omega
    have h2 : (v % 2 ^ 64).toNat = v.natAbs := by omega
    have h3 : v.natAbs < 10 ^ 20 := by omega
    simp only [Bool.true_and, decide_eq_true_eq, h2, h1, if_false, hneg]
    rw [fmtDigits_eq 20 _ [] (by norm_num) h3]
    simp

theorem Sprintf_header (key mtype : GoString) :
    Sprintf metricHeaderTemplate
        ([Value.string key, Value.string key, Value.string mtype] : List (Value Empty))
      = wireHeader key mtype := by
  simp [metricHeaderTemplate, Sprintf, Value.fmtS, wireHeader]

theorem Sprintf_line {F : Type} [Float64 F] (key mtype tag : GoString) (v : Value F) :
    Sprintf metricKeyTagTemplate [Value.string key, Value.string mtype, Value.string tag, v]
      = wireLine key mtype tag v.fmtV := by
  simp [metricKeyTagTemplate, Sprintf, Value.fmtS, wireLine]

/-! ## Lemmas on the header cache -/

theorem MetricMap.get_set_self (m : MetricMap) (k : GoString) (v : metric) :
    (m.set k v).get k = some v := by
  induction m with
  | nil => simp [MetricMap.set, MetricMap.get]
  | cons e rest ih =>
    obtain ⟨k', v'⟩ := e
    by_cases h : k' = k
    · simp [MetricMap.set, MetricMap.get, h]
    · simp [MetricMap.set, MetricMap.get, h, ih]

theorem MetricMap.get_set_other (m : MetricMap) (k k' : GoString) (v : metric) (hk : k' ≠ k) :
    (m.set k v).get k' = m.get k' := by
  induction m with
  | nil =>
    have hk2 : ¬ k = k' := fun h => hk h.symm
    simp [MetricMap.set, MetricMap.get, hk2]
  | cons e rest ih =>
    obtain ⟨k0, v0⟩ := e
    by_cases h : k0 = k
    · subst h
      have hk2 : ¬ k0 = k' := fun h => hk h.symm
      simp [MetricMap.set, MetricMap.get, hk2]
    · by_cases h2 : k0 = k'
      · subst h2
        simp [MetricMap.set, MetricMap.get, h]
      · simp [MetricMap.set, MetricMap.get, h, h2, ih]

theorem normalizeMetric_cached (f : formatter) (k t : GoString) (m : metric)
    (h : f.metrics.get k = some m) : f.normalizeMetric k t = (m, f) := by
  simp [formatter.normalizeMetric, h]

theorem normalizeMetric_fresh (f : formatter) (k t : GoString) (h : f.metrics.get k = none) :
    f.normalizeMetric k t = (newMetric k t, { metrics := f.metrics.set k (newMetric k t) }) := by
  simp [formatter.normalizeMetric, h]

theorem normalizeMetric_again (f : formatter) (k t t' : GoString) :
    (f.normalizeMetric k t).2.normalizeMetric k t' = f.normalizeMetric k t := by
  cases h : f.metrics.get k with
  | some m => simp [normalizeMetric_cached f k _ m h]
  | none =>
    rw [normalizeMetric_fresh f k t h]
    exact normalizeMetric_cached _ k t' _ (MetricMap.get_set_self _ _ _)

theorem newMetric_key (s t : GoString) : (newMetric s t).key = sanitize s := by
  show Replace s "/".toList "_".toList (-1) = sanitize s
  exact Replace_slash s

theorem newMetric_mtype (s t : GoString) : (newMetric s t).mtype = t := rfl

theorem newMetric_header (s t : GoString) :
    (newMetric s t).header = wireHeader (sanitize s) t := by
  show Sprintf metricHeaderTemplate
      ([Value.string (Replace s "/".toList "_".toList (-1)),
        Value.string (Replace s "/".toList "_".toList (-1)), Value.string t] : List (Value Empty))
    = wireHeader (sanitize s) t
  rw [Replace_slash, Sprintf_header]

theorem keyTagValue_eq {F : Type} [Float64 F] (m : metric) (tag : GoString) (v : Value F) :
    m.keyTagValue tag v = wireLine m.key m.mtype tag v.fmtV := by
  simp [metric.keyTagValue, Sprintf_line]

/-! ## The claims -/

/-- C1. Name sanitization: the key of `newMetric s t` has the length of `s`;
at every position it carries `_` where `s` carries `/` and the character of `s`
otherwise; so it holds no `/`, and every character other than `/` is kept. -/
theorem newMetric_key_positional (s t : GoString) :
    (newMetric s t).key.length = s.length ∧
    (∀ (i : Nat) (c : Char), s[i]? = some c →
      (newMetric s t).key[i]? = some (if c = '/' then '_' else c)) ∧
    '/' ∉ (newMetric s t).key ∧
    (∀ (i : Nat) (c : Char), s[i]? = some c → c ≠ '/' → (newMetric s t).key[i]? = some c) := by
  rw [newMetric_key]
  have hpos : ∀ (i : Nat) (c : Char), s[i]? = some c → (sanitize s)[i]? = some (if c = '/' then '_' else c) := by
    intro i c h
    simp [sanitize, List.getElem?_map, h]
  refine ⟨by simp [sanitize], hpos, ?_, ?_⟩
  · intro hmem
    simp only [sanitize, List.mem_map] at hmem
    obtain ⟨c, _, hc⟩ := hmem
    by_cases h : c = '/'
    · rw [if_pos h] at hc; exact absurd hc (by decide)
    · rw [if_neg h] at hc; exact h hc
  · intro i c h hc
    rw [hpos i c h, if_neg hc]

theorem counter_output (f : formatter) (b name : GoString) (m : Counter)
    (hfresh : f.metrics.get name = none) (hc : isInt64 m.Count) :
    f.counter b name m =
      { f := { metrics := f.metrics.set name (newMetric name metricGauage) }
        b := b ++ wireBlock (sanitize name) metricGauage [("value", decimal m.Count)] } := by
  simp [formatter.counter, normalizeMetric_fresh f name _ hfresh, State.Write, newMetric_header,
    keyTagValue_eq, newMetric_key, newMetric_mtype, Value.fmtV, fmtInteger_signed _ hc,
    wireBlock]

/-- C2. Counter rendering: for a name with no cache entry and a 64-bit count
`c`, `formatter.counter` appends exactly the header block of the sanitized name
with type `gauage` and the single line tagged `value` carrying `c` in decimal;
the counter `db/reads` with count 42 gives the three lines of the example. -/
theorem counter_renders (f : formatter) (b name : GoString) (c : Int)
    (hfresh : f.metrics.get name = none) (hc : isInt64 c) :
    (f.counter b name { Count := c }).b =
        b ++ ("# HELP ".toList ++ sanitize name ++ " metric\n# TYPE ".toList ++ sanitize name
          ++ " gauage\n".toList ++ sanitize name ++ "\x7bmtype=\"gauage\",aggr=\"value\"\x7d ".toList
          ++ decimal c ++ "\n".toList) ∧
    (name = "db/reads".toList → c = 42 →
      (f.counter b name { Count := c }).b =
        b ++ ("# HELP db_reads metric\n# TYPE db_reads gauage\n"
          ++ "db_reads\x7bmtype=\"gauage\",aggr=\"value\"\x7d 42\n").toList) := by
  have hout := counter_output f b name { Count := c } hfresh hc
  have hgen : (f.counter b name { Count := c }).b =
        b ++ ("# HELP ".toList ++ sanitize name ++ " metric\n# TYPE ".toList ++ sanitize name
          ++ " gauage\n".toList ++ sanitize name ++ "\x7bmtype=\"gauage\",aggr=\"value\"\x7d ".toList
          ++ decimal c ++ "\n".toList) := by
    rw [hout]
    simp [wireBlock, wireHeader, wireLine, metricGauage]
  refine ⟨hgen, ?_⟩
  intro hname hval
  subst hname hval
  have hd : decimal 42 = "42".toList :=
    (fmtInteger_signed 42 (by decide)).symm.trans (by decide)
  have hs : sanitize "db/reads".toList = "db_reads".toList := by decide
  rw [hgen, hd, hs]
  simp

/-- Witness of C2: the counter `db/reads` with count 42 on a new formatter and
an empty buffer. -/
theorem counter_renders_witness :
    newFormatter.metrics.get "db/reads".toList = none ∧ isInt64 42 ∧
    (newFormatter.counter [] "db/reads".toList { Count := 42 }).b =
      ("# HELP db_reads metric\n# TYPE db_reads gauage\n"
        ++ "db_reads\x7bmtype=\"gauage\",aggr=\"value\"\x7d 42\n").toList :=
  ⟨rfl, by decide,
    by simpa using (counter_renders newFormatter [] "db/reads".toList 42 rfl (by decide)).2 rfl rfl⟩

/-- C3. Header block: `newMetric(s, t).header()` is exactly the two lines
`# HELP <key> metric` and `# TYPE <key> <t>`, each ended by a newline, where
`<key>` is the sanitized form of `s`, which is also the key of the metric. -/
theorem newMetric_header_block (s t : GoString) :
    (newMetric s t).header =
        "# HELP ".toList ++ sanitize s ++ " metric\n".toList
          ++ ("# TYPE ".toList ++ sanitize s ++ " ".toList ++ t ++ "\n".toList) ∧
    (newMetric s t).key = sanitize s := by
  refine ⟨?_, newMetric_key s t⟩
  rw [newMetric_header]
  simp [wireHeader]

/-- C4. Value line: for a 64-bit integer `v`, `m.keyTagValue(g, v)` is the key,
the two labels with the type and the tag copied as they are, a blank, `v` in
decimal and a newline. -/
theorem keyTagValue_int64 {F : Type} [Float64 F] (m : metric) (g : GoString) (v : Int)
    (hv : isInt64 v) :
    m.keyTagValue g (Value.int64 v : Value F) =
      m.key ++ "\x7bmtype=\"".toList ++ m.mtype ++ "\",aggr=\"".toList ++ g ++ "\"\x7d ".toList
        ++ decimal v ++ "\n".toList := by
  rw [keyTagValue_eq]
  simp [wireLine, Value.fmtV, fmtInteger_signed v hv]

/-- Witness of C4: the line tagged `value` of the metric `db/reads` for the
negative value -42. -/
theorem keyTagValue_int64_witness :
    isInt64 (-42) ∧
    (newMetric "db/reads".toList metricGauage).keyTagValue "value".toList
        (Value.int64 (-42) : Value ℚ) =
      (newMetric "db/reads".toList metricGauage).key ++ "\x7bmtype=\"".toList
        ++ (newMetric "db/reads".toList metricGauage).mtype ++ "\",aggr=\"".toList
        ++ "value".toList ++ "\"\x7d ".toList ++ decimal (-42) ++ "\n".toList :=
  ⟨by decide, keyTagValue_int64 _ _ _ (by decide)⟩

/-! ### Histogram, timer and resetting timer -/

theorem index_of_get {α : Type} (st : State) (xs : List α) (i : Nat) (x : α)
    (h : xs[i]? = some x) : index st xs i = .ok x := by
  simp [index, h]

theorem histogram_output {F : Type} [Float64 F] [OfScientific F] (f : formatter)
    (b name : GoString) (m : Histogram F) (pm : metric) (f' : formatter)
    (p50 p75 p95 p99 p999 p9999 : F)
    (hnorm : f.normalizeMetric name metricSummary = (pm, f'))
    (hps : m.Percentiles [0.5, 0.75, 0.95, 0.99, 0.999, 0.9999]
      = [p50, p75, p95, p99, p999, p9999]) :
    f.histogram b name m = .ok
      { f := f'
        b := b ++ (pm.header ++ (pm.keyTagValue "count".toList (Value.int64 m.Count : Value F)
          ++ (pm.keyTagValue "max".toList (Value.int64 m.Max : Value F)
          ++ (pm.keyTagValue "mean".toList (Value.float64 m.Mean)
          ++ (pm.keyTagValue "min".toList (Value.int64 m.Min : Value F)
          ++ (pm.keyTagValue "stddev".toList (Value.float64 m.StdDev)
          ++ (pm.keyTagValue "variance".toList (Value.float64 m.Variance)
          ++ (pm.keyTagValue "p50".toList (Value.float64 p50)
          ++ (pm.keyTagValue "p75".toList (Value.float64 p75)
          ++ (pm.keyTagValue "p95".toList (Value.float64 p95)
          ++ (pm.keyTagValue "p99".toList (Value.float64 p99)
          ++ (pm.keyTagValue "p999".toList (Value.float64 p999)
          ++ pm.keyTagValue "p9999".toList (Value.float64 p9999))))))))))))) } := by
  simp [formatter.histogram, hnorm, hps, index, State.Write, Except.bind]

theorem timer_output {F : Type} [Float64 F] [OfScientific F] (f : formatter)
    (b name : GoString) (m : Timer F) (pm : metric) (f' : formatter)
    (p50 p75 p95 p99 p999 p9999 : F)
    (hnorm : f.normalizeMetric name metricSummary = (pm, f'))
    (hps : m.Percentiles [0.5, 0.75, 0.95, 0.99, 0.999, 0.9999]
      = [p50, p75, p95, p99, p999, p9999]) :
    f.timer b name m = .ok
      { f := f'
        b := b ++ (pm.header ++ (pm.keyTagValue "count".toList (Value.int64 m.Count : Value F)
          ++ (pm.keyTagValue "max".toList (Value.int64 m.Max : Value F)
          ++ (pm.keyTagValue "mean".toList (Value.float64 m.Mean)
          ++ (pm.keyTagValue "min".toList (Value.int64 m.Min : Value F)
          ++ (pm.keyTagValue "stddev".toList (Value.float64 m.StdDev)
          ++ (pm.keyTagValue "variance".toList (Value.float64 m.Variance)
          ++ (pm.keyTagValue "p50".toList (Value.float64 p50)
          ++ (pm.keyTagValue "p75".toList (Value.float64 p75)
          ++ (pm.keyTagValue "p95".toList (Value.float64 p95)
          ++ (pm.keyTagValue "p99".toList (Value.float64 p99)
          ++ (pm.keyTagValue "p999".toList (Value.float64 p999)
          ++ (pm.keyTagValue "p9999".toList (Value.float64 p9999)
          ++ (pm.keyTagValue "m1".toList (Value.float64 m.Rate1)
          ++ (pm.keyTagValue "m5".toList (Value.float64 m.Rate5)
          ++ (pm.keyTagValue "m15".toList (Value.float64 m.Rate15)
          ++ pm.keyTagValue "meanrate".toList (Value.float64 m.RateMean))))))))))))))))) } := by
  simp [formatter.timer, hnorm, hps, index, State.Write, Except.bind]

theorem getElem?_last {α : Type} (xs : List α) (hne : xs ≠ []) :
    xs[xs.length - 1]? = some (xs.getLast hne) := by
  rw [List.getLast_eq_getElem]
  exact List.getElem?_eq_getElem _

theorem getElem?_first {α : Type} (xs : List α) (hne : xs ≠ []) :
    xs[0]? = some (xs.head hne) := by
  cases xs with
  | nil => exact absurd rfl hne
  | cons x rest => simp

theorem resettingTimer_output {F : Type} [Float64 F] [OfScientific F] (f : formatter)
    (b name : GoString) (m : ResettingTimer F) (pm : metric) (f' : formatter)
    (p50 p95 p99 : Int) (hne : m.Values ≠ [])
    (hnorm : f.normalizeMetric name metricSummary = (pm, f'))
    (hps : m.Percentiles [50.0, 95.0, 99.0] = [p50, p95, p99]) :
    f.resettingTimer b name m = .ok
      { f := f'
        b := b ++ (pm.header
          ++ (pm.keyTagValue "count".toList (Value.int (m.Values.length : Int) : Value F)
          ++ (pm.keyTagValue "max".toList (Value.int64 (m.Values.getLast hne) : Value F)
          ++ (pm.keyTagValue "mean".toList (Value.float64 m.Mean)
          ++ (pm.keyTagValue "min".toList (Value.int64 (m.Values.head hne) : Value F)
          ++ (pm.keyTagValue "p50".toList (Value.int64 p50 : Value F)
          ++ (pm.keyTagValue "p95".toList (Value.int64 p95 : Value F)
          ++ pm.keyTagValue "p99".toList (Value.int64 p99 : Value F)))))))) } := by
  have hlen : ¬ m.Values.length ≤ 0 := by
    have := List.length_pos.mpr hne
    omega
  have hlast := getElem?_last m.Values hne
  have hfirst := getElem?_first m.Values hne
  simp [formatter.resettingTimer, hnorm, hps, index, State.Write, Except.bind, hlast, hfirst]
  intro h
  exact absurd h hne

theorem resettingTimer_empty {F : Type} [Float64 F] [OfScientific F] (f : formatter)
    (b name : GoString) (m : ResettingTimer F) (hempty : m.Values = []) :
    f.resettingTimer b name m = .ok { f := f, b := b } := by
  simp [formatter.resettingTimer, hempty]

/-- C5. Histogram rendering: for a name not yet cached and a snapshot whose
percentile function answers the single request `[0.5, 0.75, 0.95, 0.99, 0.999,
0.9999]` with six results, `formatter.histogram` returns and appends the header
block of type `summary` once, then exactly the 12 value lines tagged count,
max, mean, min, stddev, variance, p50, p75, p95, p99, p999, p9999, the last six
carrying the six results in order. -/
theorem histogram_renders {F : Type} [Float64 F] [OfScientific F] (f : formatter)
    (b name : GoString) (m : Histogram F) (p50 p75 p95 p99 p999 p9999 : F)
    (hfresh : f.metrics.get name = none)
    (hps : m.Percentiles [0.5, 0.75, 0.95, 0.99, 0.999, 0.9999]
      = [p50, p75, p95, p99, p999, p9999])
    (hcount : isInt64 m.Count) (hmax : isInt64 m.Max) (hmin : isInt64 m.Min) :
    ∃ st, f.histogram b name m = .ok st ∧
      st.b = b ++ wireBlock (sanitize name) "summary".toList
        [("count", decimal m.Count), ("max", decimal m.Max),
         ("mean", Float64.fmtFloat m.Mean), ("min", decimal m.Min),
         ("stddev", Float64.fmtFloat m.StdDev), ("variance", Float64.fmtFloat m.Variance),
         ("p50", Float64.fmtFloat p50), ("p75", Float64.fmtFloat p75),
         ("p95", Float64.fmtFloat p95), ("p99", Float64.fmtFloat p99),
         ("p999", Float64.fmtFloat p999), ("p9999", Float64.fmtFloat p9999)] := by
  refine ⟨_, histogram_output f b name m _ _ _ _ _ _ _ _
    (normalizeMetric_fresh f name metricSummary hfresh) hps, ?_⟩
  simp [newMetric_header, keyTagValue_eq, newMetric_key, newMetric_mtype, Value.fmtV,
    fmtInteger_signed _ hcount, fmtInteger_signed _ hmax, fmtInteger_signed _ hmin,
    wireBlock, metricSummary]

/-- Witness of C5: the sample histogram under the name `a/b` on a new
formatter and an empty buffer. -/
theorem histogram_renders_witness :
    ∃ st, newFormatter.histogram [] "a/b".toList sampleHistogram = .ok st ∧
      st.b = [] ++ wireBlock (sanitize "a/b".toList) "summary".toList
        [("count", decimal 3), ("max", decimal 7),
         ("mean", Float64.fmtFloat (4 : ℚ)), ("min", decimal (-2)),
         ("stddev", Float64.fmtFloat (1 : ℚ)), ("variance", Float64.fmtFloat (1 : ℚ)),
         ("p50", Float64.fmtFloat (0.5 : ℚ)), ("p75", Float64.fmtFloat (0.75 : ℚ)),
         ("p95", Float64.fmtFloat (0.95 : ℚ)), ("p99", Float64.fmtFloat (0.99 : ℚ)),
         ("p999", Float64.fmtFloat (0.999 : ℚ)), ("p9999", Float64.fmtFloat (0.9999 : ℚ))] :=
  histogram_renders newFormatter [] "a/b".toList sampleHistogram _ _ _ _ _ _ rfl rfl
    (by decide) (by decide) (by decide)

/-- C6. Timer rendering: for a name not yet cached and a snapshot whose
percentile function returns six results, `formatter.timer` returns and appends
the header block of type `summary`, then exactly the 16 value lines tagged
count, max, mean, min, stddev, variance, p50, p75, p95, p99, p999, p9999, m1,
m5, m15, meanrate; the output is what `formatter.histogram` appends for the
same name and the same histogram statistics, followed by the four lines that
carry `Rate1`, `Rate5`, `Rate15` and `RateMean`. -/
theorem timer_renders {F : Type} [Float64 F] [OfScientific F] (f : formatter)
    (b name : GoString) (m : Timer F) (p50 p75 p95 p99 p999 p9999 : F)
    (hfresh : f.metrics.get name = none)
    (hps : m.Percentiles [0.5, 0.75, 0.95, 0.99, 0.999, 0.9999]
      = [p50, p75, p95, p99, p999, p9999])
    (hcount : isInt64 m.Count) (hmax : isInt64 m.Max) (hmin : isInt64 m.Min) :
    ∃ st sth, f.timer b name m = .ok st ∧
      f.histogram b name m.histogramPart = .ok sth ∧
      st.b = b ++ wireBlock (sanitize name) "summary".toList
        [("count", decimal m.Count), ("max", decimal m.Max),
         ("mean", Float64.fmtFloat m.Mean), ("min", decimal m.Min),
         ("stddev", Float64.fmtFloat m.StdDev), ("variance", Float64.fmtFloat m.Variance),
         ("p50", Float64.fmtFloat p50), ("p75", Float64.fmtFloat p75),
         ("p95", Float64.fmtFloat p95), ("p99", Float64.fmtFloat p99),
         ("p999", Float64.fmtFloat p999), ("p9999", Float64.fmtFloat p9999),
         ("m1", Float64.fmtFloat m.Rate1), ("m5", Float64.fmtFloat m.Rate5),
         ("m15", Float64.fmtFloat m.Rate15), ("meanrate", Float64.fmtFloat m.RateMean)] ∧
      st.b = sth.b
        ++ wireLine (sanitize name) "summary".toList "m1".toList (Float64.fmtFloat m.Rate1)
        ++ wireLine (sanitize name) "summary".toList "m5".toList (Float64.fmtFloat m.Rate5)
        ++ wireLine (sanitize name) "summary".toList "m15".toList (Float64.fmtFloat m.Rate15)
        ++ wireLine (sanitize name) "summary".toList "meanrate".toList
            (Float64.fmtFloat m.RateMean) := by
  have hnorm := normalizeMetric_fresh f name metricSummary hfresh
  refine ⟨_, _, timer_output f b name m _ _ _ _ _ _ _ _ hnorm hps,
    histogram_output f b name m.histogramPart _ _ _ _ _ _ _ _ hnorm hps, ?_, ?_⟩
  · simp [newMetric_header, keyTagValue_eq, newMetric_key, newMetric_mtype, Value.fmtV,
      fmtInteger_signed _ hcount, fmtInteger_signed _ hmax, fmtInteger_signed _ hmin,
      wireBlock, metricSummary]
  · simp [newMetric_header, keyTagValue_eq, newMetric_key, newMetric_mtype, Value.fmtV,
      Timer.histogramPart, metricSummary]

/-- Witness of C6: the sample timer under the name `a/b` on a new formatter
and an empty buffer. -/
theorem timer_renders_witness :
    ∃ st sth, newFormatter.timer [] "a/b".toList sampleTimer = .ok st ∧
      newFormatter.histogram [] "a/b".toList sampleTimer.histogramPart = .ok sth ∧
      st.b = [] ++ wireBlock (sanitize "a/b".toList) "summary".toList
        [("count", decimal 3), ("max", decimal 7),
         ("mean", Float64.fmtFloat (4 : ℚ)), ("min", decimal (-2)),
         ("stddev", Float64.fmtFloat (1 : ℚ)), ("variance", Float64.fmtFloat (1 : ℚ)),
         ("p50", Float64.fmtFloat (0.5 : ℚ)), ("p75", Float64.fmtFloat (0.75 : ℚ)),
         ("p95", Float64.fmtFloat (0.95 : ℚ)), ("p99", Float64.fmtFloat (0.99 : ℚ)),
         ("p999", Float64.fmtFloat (0.999 : ℚ)), ("p9999", Float64.fmtFloat (0.9999 : ℚ)),
         ("m1", Float64.fmtFloat (1 : ℚ)), ("m5", Float64.fmtFloat (2 : ℚ)),
         ("m15", Float64.fmtFloat (3 : ℚ)), ("meanrate", Float64.fmtFloat (5 : ℚ))] ∧
      st.b = sth.b
        ++ wireLine (sanitize "a/b".toList) "summary".toList "m1".toList
            (Float64.fmtFloat (1 : ℚ))
        ++ wireLine (sanitize "a/b".toList) "summary".toList "m5".toList
            (Float64.fmtFloat (2 : ℚ))
        ++ wireLine (sanitize "a/b".toList) "summary".toList "m15".toList
            (Float64.fmtFloat (3 : ℚ))
        ++ wireLine (sanitize "a/b".toList) "summary".toList "meanrate".toList
            (Float64.fmtFloat (5 : ℚ)) :=
  timer_renders newFormatter [] "a/b".toList sampleTimer _ _ _ _ _ _ rfl rfl
    (by decide) (by decide) (by decide)

theorem decimal_of_fmt (v : Int) (hv : isInt64 v) (s : GoString)
    (h : fmtInteger (toUint64 v) true = s) : decimal v = s :=
  (fmtInteger_signed v hv).symm.trans h

/-- C7. Resetting-timer rendering, non-empty case: for a name not yet cached
and a snapshot with a non-empty value sequence whose percentile function
answers the request `[50, 95, 99]` with three results, `formatter.resettingTimer`
returns and appends the header block of type `summary`, then exactly the 7
value lines tagged count, max, mean, min, p50, p95, p99: count is the length of
the values, max their last element, min their first element, and the percentile
lines carry the three results in order. For the values `[1,2,2,5,9]` with
percentiles 2, 9, 9 this gives count 5, max 9, min 1. -/
theorem resettingTimer_renders {F : Type} [Float64 F] [OfScientific F] (f : formatter)
    (b name : GoString) (m : ResettingTimer F) (p50 p95 p99 : Int)
    (hne : m.Values ≠ [])
    (hfresh : f.metrics.get name = none)
    (hps : m.Percentiles [50.0, 95.0, 99.0] = [p50, p95, p99])
    (hlen : (m.Values.length : Int) < 2 ^ 63)
    (hvals : ∀ v ∈ m.Values, isInt64 v)
    (h50 : isInt64 p50) (h95 : isInt64 p95) (h99 : isInt64 p99) :
    ∃ st, f.resettingTimer b name m = .ok st ∧
      st.b = b ++ wireBlock (sanitize name) "summary".toList
        [("count", decimal (m.Values.length : Int)), ("max", decimal (m.Values.getLast hne)),
         ("mean", Float64.fmtFloat m.Mean), ("min", decimal (m.Values.head hne)),
         ("p50", decimal p50), ("p95", decimal p95), ("p99", decimal p99)] ∧
      (m.Values = [1, 2, 2, 5, 9] → p50 = 2 → p95 = 9 → p99 = 9 →
        st.b = b ++ wireBlock (sanitize name) "summary".toList
          [("count", "5".toList), ("max", "9".toList),
           ("mean", Float64.fmtFloat m.Mean), ("min", "1".toList),
           ("p50", "2".toList), ("p95", "9".toList), ("p99", "9".toList)]) := by
  have hcount : isInt64 (m.Values.length : Int) := by
    constructor
    · have h0 : (0 : Int) ≤ (m.Values.length : Int) := Int.natCast_nonneg _
      have h1 : (-2 : Int) ^ 63 ≤ 0 := by norm_num
      have h2 : -(2 : Int) ^ 63 ≤ 0 := by norm_num
      omega
    · exact hlen
  have hmax : isInt64 (m.Values.getLast hne) := hvals _ (List.getLast_mem hne)
  have hmin : isInt64 (m.Values.head hne) := hvals _ (List.head_mem hne)
  have hgen : b ++ (newMetric name metricSummary).header
        ++ ((newMetric name metricSummary).keyTagValue "count".toList
              (Value.int (m.Values.length : Int) : Value F)
        ++ ((newMetric name metricSummary).keyTagValue "max".toList
              (Value.int64 (m.Values.getLast hne) : Value F)
        ++ ((newMetric name metricSummary).keyTagValue "mean".toList (Value.float64 m.Mean)
        ++ ((newMetric name metricSummary).keyTagValue "min".toList
              (Value.int64 (m.Values.head hne) : Value F)
        ++ ((newMetric name metricSummary).keyTagValue "p50".toList (Value.int64 p50 : Value F)
        ++ ((newMetric name metricSummary).keyTagValue "p95".toList (Value.int64 p95 : Value F)
        ++ (newMetric name metricSummary).keyTagValue "p99".toList
              (Value.int64 p99 : Value F)))))))
      = b ++ wireBlock (sanitize name) "summary".toList
        [("count", decimal (m.Values.length : Int)), ("max", decimal (m.Values.getLast hne)),
         ("mean", Float64.fmtFloat m.Mean), ("min", decimal (m.Values.head hne)),
         ("p50", decimal p50), ("p95", decimal p95), ("p99", decimal p99)] := by
    simp [newMetric_header, keyTagValue_eq, newMetric_key, newMetric_mtype, Value.fmtV,
      fmtInteger_signed _ hcount, fmtInteger_signed _ hmax, fmtInteger_signed _ hmin,
      fmtInteger_signed _ h50, fmtInteger_signed _ h95, fmtInteger_signed _ h99,
      wireBlock, metricSummary]
  refine ⟨_, resettingTimer_output f b name m _ _ p50 p95 p99 hne
    (normalizeMetric_fresh f name metricSummary hfresh) hps, ?_, ?_⟩
  · simpa using hgen
  · intro hv e50 e95 e99
    subst e50 e95 e99
    have hl : (m.Values.length : Int) = 5 := by simp [hv]
    have hlast : m.Values.getLast hne = 9 := by simp [hv]
    have hhead : m.Values.head hne = 1 := by simp [hv]
    have d5 : decimal 5 = "5".toList := decimal_of_fmt 5 (by decide) _ (by decide)
    have d9 : decimal 9 = "9".toList := decimal_of_fmt 9 (by decide) _ (by decide)
    have d1 : decimal 1 = "1".toList := decimal_of_fmt 1 (by decide) _ (by decide)
    have d2 : decimal 2 = "2".toList := decimal_of_fmt 2 (by decide) _ (by decide)
    have hlit : wireBlock (sanitize name) "summary".toList
        [("count", decimal (m.Values.length : Int)), ("max", decimal (m.Values.getLast hne)),
         ("mean", Float64.fmtFloat m.Mean), ("min", decimal (m.Values.head hne)),
         ("p50", decimal 2), ("p95", decimal 9), ("p99", decimal 9)]
      = wireBlock (sanitize name) "summary".toList
          [("count", "5".toList), ("max", "9".toList),
           ("mean", Float64.fmtFloat m.Mean), ("min", "1".toList),
           ("p50", "2".toList), ("p95", "9".toList), ("p99", "9".toList)] := by
      rw [hl, hlast, hhead, d5, d9, d1, d2]
    rw [← hlit]
    simpa using hgen

/-- Witness of C7: the resetting timer of the example, values `[1,2,2,5,9]`,
under the name `a/b` on a new formatter and an empty buffer. -/
theorem resettingTimer_renders_witness :
    ∃ st, newFormatter.resettingTimer [] "a/b".toList sampleResettingTimer = .ok st ∧
      st.b = [] ++ wireBlock (sanitize "a/b".toList) "summary".toList
        [("count", "5".toList), ("max", "9".toList),
         ("mean", Float64.fmtFloat (3.8 : ℚ)), ("min", "1".toList),
         ("p50", "2".toList), ("p95", "9".toList), ("p99", "9".toList)] := by
  obtain ⟨st, hst, _, hex⟩ :=
    resettingTimer_renders newFormatter [] "a/b".toList sampleResettingTimer 2 9 9
      (by decide) rfl rfl (by decide) (by decide) (by decide) (by decide) (by decide)
  exact ⟨st, hst, hex rfl rfl rfl rfl⟩

/-- C8. An empty resetting timer is skipped: for every name, formatter and
buffer, when the value sequence is empty `formatter.resettingTimer` returns
with the buffer as it was (zero bytes appended) and the formatter as it was,
so the cache holds for the name what it held before. -/
theorem resettingTimer_skips_empty {F : Type} [Float64 F] [OfScientific F] (f : formatter)
    (b name : GoString) (m : ResettingTimer F) (hempty : m.Values = []) :
    ∃ st, f.resettingTimer b name m = .ok st ∧ st.b = b ∧ st.f = f ∧
      st.f.metrics.get name = f.metrics.get name :=
  ⟨_, resettingTimer_empty f b name m hempty, rfl, rfl, rfl⟩

/-- Witness of C8: the empty resetting timer on a new formatter, with a buffer
that already holds a byte. -/
theorem resettingTimer_skips_empty_witness :
    emptyResettingTimer.Values = [] ∧
    ∃ st, newFormatter.resettingTimer ['x'] "a/b".toList emptyResettingTimer = .ok st ∧
      st.b = ['x'] ∧ st.f = newFormatter ∧
      st.f.metrics.get "a/b".toList = newFormatter.metrics.get "a/b".toList :=
  ⟨rfl, resettingTimer_skips_empty newFormatter ['x'] "a/b".toList emptyResettingTimer rfl⟩

/-! ### The cache across calls -/

theorem counter_eq (f : formatter) (b name : GoString) (m : Counter) (pm : metric)
    (f' : formatter) (hnorm : f.normalizeMetric name metricGauage = (pm, f')) :
    f.counter b name m =
      { f := f'
        b := b ++ metricBlock pm [("value", (Value.int64 m.Count : Value Empty))] } := by
  simp [formatter.counter, hnorm, State.Write, metricBlock]

theorem gauge_eq (f : formatter) (b name : GoString) (m : Gauge) (pm : metric)
    (f' : formatter) (hnorm : f.normalizeMetric name metricGauage = (pm, f')) :
    f.gauge b name m =
      { f := f'
        b := b ++ metricBlock pm [("value", (Value.int64 m.Value : Value Empty))] } := by
  simp [formatter.gauge, hnorm, State.Write, metricBlock]

theorem gaugeFloat64_eq {F : Type} [Float64 F] (f : formatter) (b name : GoString)
    (m : GaugeFloat64 F) (pm : metric) (f' : formatter)
    (hnorm : f.normalizeMetric name metricGauage = (pm, f')) :
    f.gaugeFloat64 b name m =
      { f := f', b := b ++ metricBlock pm [("value", Value.float64 m.Value)] } := by
  simp [formatter.gaugeFloat64, hnorm, State.Write, metricBlock]

theorem meter_eq {F : Type} [Float64 F] (f : formatter) (b name : GoString)
    (m : Meter F) (pm : metric) (f' : formatter)
    (hnorm : f.normalizeMetric name metricGauage = (pm, f')) :
    f.meter b name m =
      { f := f'
        b := b ++ metricBlock pm
          [("count", Value.int64 m.Count), ("m1", Value.float64 m.Rate1),
           ("m5", Value.float64 m.Rate5), ("m15", Value.float64 m.Rate15),
           ("mean", Value.float64 m.RateMean)] } := by
  simp [formatter.meter, hnorm, State.Write, metricBlock]

theorem rendersTwice_of {render : formatter → GoString → Outcome} {f f' : formatter}
    {b blk : GoString}
    (h1 : render f b = .ok { f := f', b := b ++ blk })
    (h2 : render f' (b ++ blk) = .ok { f := f', b := b ++ blk ++ blk }) :
    rendersTwice render f b blk :=
  ⟨_, _, h1, h2, rfl, rfl, rfl⟩

theorem normalizeMetric_pair (f : formatter) (k t : GoString) :
    f.normalizeMetric k t = ((f.normalizeMetric k t).1, (f.normalizeMetric k t).2) := rfl

theorem normalizeMetric_second (f : formatter) (k t : GoString) :
    (f.normalizeMetric k t).2.normalizeMetric k t
      = ((f.normalizeMetric k t).1, (f.normalizeMetric k t).2) :=
  normalizeMetric_again f k t t

theorem histogram_block {F : Type} [Float64 F] [OfScientific F] (f : formatter)
    (b name : GoString) (m : Histogram F) (pm : metric) (f' : formatter)
    (p50 p75 p95 p99 p999 p9999 : F)
    (hnorm : f.normalizeMetric name metricSummary = (pm, f'))
    (hps : m.Percentiles [0.5, 0.75, 0.95, 0.99, 0.999, 0.9999]
      = [p50, p75, p95, p99, p999, p9999]) :
    f.histogram b name m = .ok
      { f := f'
        b := b ++ metricBlock pm
          [("count", Value.int64 m.Count), ("max", Value.int64 m.Max),
           ("mean", Value.float64 m.Mean), ("min", Value.int64 m.Min),
           ("stddev", Value.float64 m.StdDev), ("variance", Value.float64 m.Variance),
           ("p50", Value.float64 p50), ("p75", Value.float64 p75),
           ("p95", Value.float64 p95), ("p99", Value.float64 p99),
           ("p999", Value.float64 p999), ("p9999", Value.float64 p9999)] } := by
  rw [histogram_output f b name m pm f' p50 p75 p95 p99 p999 p9999 hnorm hps]
  simp [metricBlock]

theorem timer_block {F : Type} [Float64 F] [OfScientific F] (f : formatter)
    (b name : GoString) (m : Timer F) (pm : metric) (f' : formatter)
    (p50 p75 p95 p99 p999 p9999 : F)
    (hnorm : f.normalizeMetric name metricSummary = (pm, f'))
    (hps : m.Percentiles [0.5, 0.75, 0.95, 0.99, 0.999, 0.9999]
      = [p50, p75, p95, p99, p999, p9999]) :
    f.timer b name m = .ok
      { f := f'
        b := b ++ metricBlock pm
          [("count", Value.int64 m.Count), ("max", Value.int64 m.Max),
           ("mean", Value.float64 m.Mean), ("min", Value.int64 m.Min),
           ("stddev", Value.float64 m.StdDev), ("variance", Value.float64 m.Variance),
           ("p50", Value.float64 p50), ("p75", Value.float64 p75),
           ("p95", Value.float64 p95), ("p99", Value.float64 p99),
           ("p999", Value.float64 p999), ("p9999", Value.float64 p9999),
           ("m1", Value.float64 m.Rate1), ("m5", Value.float64 m.Rate5),
           ("m15", Value.float64 m.Rate15), ("meanrate", Value.float64 m.RateMean)] } := by
  rw [timer_output f b name m pm f' p50 p75 p95 p99 p999 p9999 hnorm hps]
  simp [metricBlock]

theorem resettingTimer_block {F : Type} [Float64 F] [OfScientific F] (f : formatter)
    (b name : GoString) (m : ResettingTimer F) (pm : metric) (f' : formatter)
    (p50 p95 p99 : Int) (hne : m.Values ≠ [])
    (hnorm : f.normalizeMetric name metricSummary = (pm, f'))
    (hps : m.Percentiles [50.0, 95.0, 99.0] = [p50, p95, p99]) :
    f.resettingTimer b name m = .ok
      { f := f'
        b := b ++ metricBlock pm
          ([("count", Value.int (m.Values.length : Int)),
           ("max", Value.int64 (m.Values.getLast hne)), ("mean", Value.float64 m.Mean),
           ("min", Value.int64 (m.Values.head hne)), ("p50", Value.int64 p50),
           ("p95", Value.int64 p95), ("p99", Value.int64 p99)] : List (String × Value F)) } := by
  rw [resettingTimer_output f b name m pm f' p50 p95 p99 hne hnorm hps]
  simp [metricBlock]

/-- C9. The first declared type wins: when the name `n` has the cached metric
`m`, `normalizeMetric(n, t')` returns `m` for every declared type `t'` and
leaves the formatter as it was. So a name first rendered as a counter and then
as a histogram is emitted the second time with `gauage` in its TYPE line and in
the `mtype` label of each of its lines. -/
theorem first_declared_type_wins (f : formatter) (n t' : GoString) (pm : metric)
    (hget : f.metrics.get n = some pm) :
    f.normalizeMetric n t' = (pm, f) ∧
    (∀ (F : Type) [Float64 F] [OfScientific F] (f0 : formatter) (b name : GoString)
        (c : Counter) (m : Histogram F) (p50 p75 p95 p99 p999 p9999 : F),
      f0.metrics.get name = none →
      m.Percentiles [0.5, 0.75, 0.95, 0.99, 0.999, 0.9999]
        = [p50, p75, p95, p99, p999, p9999] →
      isInt64 m.Count → isInt64 m.Max → isInt64 m.Min →
      ∃ st, (f0.counter b name c).f.histogram (f0.counter b name c).b name m = .ok st ∧
        st.f = (f0.counter b name c).f ∧
        st.b = (f0.counter b name c).b ++ wireBlock (sanitize name) "gauage".toList
          [("count", decimal m.Count), ("max", decimal m.Max),
           ("mean", Float64.fmtFloat m.Mean), ("min", decimal m.Min),
           ("stddev", Float64.fmtFloat m.StdDev), ("variance", Float64.fmtFloat m.Variance),
           ("p50", Float64.fmtFloat p50), ("p75", Float64.fmtFloat p75),
           ("p95", Float64.fmtFloat p95), ("p99", Float64.fmtFloat p99),
           ("p999", Float64.fmtFloat p999), ("p9999", Float64.fmtFloat p9999)]) := by
  refine ⟨normalizeMetric_cached f n t' pm hget, ?_⟩
  intro F _ _ f0 b name c m p50 p75 p95 p99 p999 p9999 hfresh hps hcount hmax hmin
  have hc := counter_eq f0 b name c _ _ (normalizeMetric_fresh f0 name metricGauage hfresh)
  have hcached : ({ metrics := f0.metrics.set name (newMetric name metricGauage) } : formatter
      ).normalizeMetric name metricSummary
        = (newMetric name metricGauage,
            { metrics := f0.metrics.set name (newMetric name metricGauage) }) :=
    normalizeMetric_cached _ name metricSummary _ (MetricMap.get_set_self _ _ _)
  rw [hc]
  refine ⟨_, histogram_output _ _ name m _ _ _ _ _ _ _ _ hcached hps, rfl, ?_⟩
  simp [newMetric_header, keyTagValue_eq, newMetric_key, newMetric_mtype, Value.fmtV,
    fmtInteger_signed _ hcount, fmtInteger_signed _ hmax, fmtInteger_signed _ hmin,
    wireBlock, metricGauage]

/-- Witness of C9: after the counter `db/reads` was rendered, the name is
resolved with the declared type `summary` and the cached `gauage` metric comes
back. -/
theorem first_declared_type_wins_witness :
    (newFormatter.counter [] "db/reads".toList { Count := 42 }).f.metrics.get "db/reads".toList
      = some (newMetric "db/reads".toList metricGauage) ∧
    (newFormatter.counter [] "db/reads".toList { Count := 42 }).f.normalizeMetric
        "db/reads".toList metricSummary
      = (newMetric "db/reads".toList metricGauage,
          (newFormatter.counter [] "db/reads".toList { Count := 42 }).f) :=
  ⟨rfl, (first_declared_type_wins
    (newFormatter.counter [] "db/reads".toList { Count := 42 }).f "db/reads".toList
    metricSummary (newMetric "db/reads".toList metricGauage) rfl).1⟩

/-- C10 as stated fails: the empty resetting timer rendered twice on a new
formatter returns both times with an empty buffer, so neither appended block
holds a header block (of any key and type, anywhere in it). -/
theorem render_twice_empty_resettingTimer_no_header :
    ∃ st1 st2,
      newFormatter.resettingTimer [] "a/b".toList emptyResettingTimer = .ok st1 ∧
      st1.f.resettingTimer st1.b "a/b".toList emptyResettingTimer = .ok st2 ∧
      st1.b = [] ∧ st2.b = [] ∧
      ¬ ∃ key type before after, st1.b = before ++ wireHeader key type ++ after := by
  refine ⟨_, _, resettingTimer_empty newFormatter [] _ emptyResettingTimer rfl,
    resettingTimer_empty newFormatter [] _ emptyResettingTimer rfl, rfl, rfl, ?_⟩
  rintro ⟨key, type, before, after, h⟩
  simp [wireHeader] at h

/-- C10, amended. For every formatter, buffer and name, and every snapshot
whose percentile function returns as many results as requested, two calls in
sequence of the render routine of its kind both return, append the same block
twice, and the second call leaves the cache as the first left it. The block is
the header of the metric key the cache gives for the name, followed by the
value lines of the kind; for a resetting timer with no value it is empty. -/
theorem render_twice_same_block {F : Type} [Float64 F] [OfScientific F] (f : formatter)
    (b name : GoString) :
    (∀ m : Counter,
      rendersTwice (fun f b => .ok (f.counter b name m)) f b
        (metricBlock (f.normalizeMetric name metricGauage).1
          [("value", (Value.int64 m.Count : Value Empty))])) ∧
    (∀ m : Gauge,
      rendersTwice (fun f b => .ok (f.gauge b name m)) f b
        (metricBlock (f.normalizeMetric name metricGauage).1
          [("value", (Value.int64 m.Value : Value Empty))])) ∧
    (∀ m : GaugeFloat64 F,
      rendersTwice (fun f b => .ok (f.gaugeFloat64 b name m)) f b
        (metricBlock (f.normalizeMetric name metricGauage).1
          [("value", Value.float64 m.Value)])) ∧
    (∀ (m : Histogram F) (p50 p75 p95 p99 p999 p9999 : F),
      m.Percentiles [0.5, 0.75, 0.95, 0.99, 0.999, 0.9999]
        = [p50, p75, p95, p99, p999, p9999] →
      rendersTwice (fun f b => f.histogram b name m) f b
        (metricBlock (f.normalizeMetric name metricSummary).1
            [("count", Value.int64 m.Count), ("max", Value.int64 m.Max),
             ("mean", Value.float64 m.Mean), ("min", Value.int64 m.Min),
             ("stddev", Value.float64 m.StdDev), ("variance", Value.float64 m.Variance),
             ("p50", Value.float64 p50), ("p75", Value.float64 p75),
             ("p95", Value.float64 p95), ("p99", Value.float64 p99),
             ("p999", Value.float64 p999), ("p9999", Value.float64 p9999)])) ∧
    (∀ m : Meter F,
      rendersTwice (fun f b => .ok (f.meter b name m)) f b
        (metricBlock (f.normalizeMetric name metricGauage).1
            [("count", Value.int64 m.Count), ("m1", Value.float64 m.Rate1),
             ("m5", Value.float64 m.Rate5), ("m15", Value.float64 m.Rate15),
             ("mean", Value.float64 m.RateMean)])) ∧
    (∀ (m : Timer F) (p50 p75 p95 p99 p999 p9999 : F),
      m.Percentiles [0.5, 0.75, 0.95, 0.99, 0.999, 0.9999]
        = [p50, p75, p95, p99, p999, p9999] →
      rendersTwice (fun f b => f.timer b name m) f b
        (metricBlock (f.normalizeMetric name metricSummary).1
            [("count", Value.int64 m.Count), ("max", Value.int64 m.Max),
             ("mean", Value.float64 m.Mean), ("min", Value.int64 m.Min),
             ("stddev", Value.float64 m.StdDev), ("variance", Value.float64 m.Variance),
             ("p50", Value.float64 p50), ("p75", Value.float64 p75),
             ("p95", Value.float64 p95), ("p99", Value.float64 p99),
             ("p999", Value.float64 p999), ("p9999", Value.float64 p9999),
             ("m1", Value.float64 m.Rate1), ("m5", Value.float64 m.Rate5),
             ("m15", Value.float64 m.Rate15), ("meanrate", Value.float64 m.RateMean)])) ∧
    (∀ m : ResettingTimer F, m.Values = [] →
      rendersTwice (fun f b => f.resettingTimer b name m) f b []) ∧
    (∀ (m : ResettingTimer F) (p50 p95 p99 : Int) (hne : m.Values ≠ []),
      m.Percentiles [50.0, 95.0, 99.0] = [p50, p95, p99] →
      rendersTwice (fun f b => f.resettingTimer b name m) f b
        (metricBlock (f.normalizeMetric name metricSummary).1
            ([("count", Value.int (m.Values.length : Int)),
             ("max", Value.int64 (m.Values.getLast hne)), ("mean", Value.float64 m.Mean),
             ("min", Value.int64 (m.Values.head hne)), ("p50", Value.int64 p50),
             ("p95", Value.int64 p95), ("p99", Value.int64 p99)] : List (String × Value F)))) := by
  have hG1 := normalizeMetric_pair f name metricGauage
  have hG2 := normalizeMetric_second f name metricGauage
  have hS1 := normalizeMetric_pair f name metricSummary
  have hS2 := normalizeMetric_second f name metricSummary
  refine ⟨?_, ?_, ?_, ?_, ?_, ?_, ?_, ?_⟩
  · intro m
    exact rendersTwice_of (congrArg Except.ok (counter_eq f b name m _ _ hG1))
      (congrArg Except.ok (counter_eq _ _ name m _ _ hG2))
  · intro m
    exact rendersTwice_of (congrArg Except.ok (gauge_eq f b name m _ _ hG1))
      (congrArg Except.ok (gauge_eq _ _ name m _ _ hG2))
  · intro m
    exact rendersTwice_of (congrArg Except.ok (gaugeFloat64_eq f b name m _ _ hG1))
      (congrArg Except.ok (gaugeFloat64_eq _ _ name m _ _ hG2))
  · intro m p50 p75 p95 p99 p999 p9999 hps
    exact rendersTwice_of (histogram_block f b name m _ _ _ _ _ _ _ _ hS1 hps)
      (histogram_block _ _ name m _ _ _ _ _ _ _ _ hS2 hps)
  · intro m
    exact rendersTwice_of (congrArg Except.ok (meter_eq f b name m _ _ hG1))
      (congrArg Except.ok (meter_eq _ _ name m _ _ hG2))
  · intro m p50 p75 p95 p99 p999 p9999 hps
    exact rendersTwice_of (timer_block f b name m _ _ _ _ _ _ _ _ hS1 hps)
      (timer_block _ _ name m _ _ _ _ _ _ _ _ hS2 hps)
  · intro m hempty
    refine ⟨_, _, resettingTimer_empty f b name m hempty,
      resettingTimer_empty f b name m hempty, ?_, ?_, rfl⟩ <;> simp
  · intro m p50 p95 p99 hne hps
    exact rendersTwice_of (resettingTimer_block f b name m _ _ _ _ _ hne hS1 hps)
      (resettingTimer_block _ _ name m _ _ _ _ _ hne hS2 hps)

/-- Witness of C10, amended: the sample histogram rendered twice under the
name `a/b`, starting from a new formatter and an empty buffer. -/
theorem render_twice_same_block_witness :
    rendersTwice (fun f b => f.histogram b "a/b".toList sampleHistogram) newFormatter []
      (metricBlock (newFormatter.normalizeMetric "a/b".toList metricSummary).1
        [("count", Value.int64 3), ("max", Value.int64 7),
         ("mean", Value.float64 (4 : ℚ)), ("min", Value.int64 (-2)),
         ("stddev", Value.float64 (1 : ℚ)), ("variance", Value.float64 (1 : ℚ)),
         ("p50", Value.float64 (0.5 : ℚ)), ("p75", Value.float64 (0.75 : ℚ)),
         ("p95", Value.float64 (0.95 : ℚ)), ("p99", Value.float64 (0.99 : ℚ)),
         ("p999", Value.float64 (0.999 : ℚ)), ("p9999", Value.float64 (0.9999 : ℚ))]) :=
  (render_twice_same_block newFormatter [] "a/b".toList).2.2.2.1 sampleHistogram _ _ _ _ _ _ rfl

/-! ### The render routines on every snapshot -/

theorem histogram_cases {F : Type} [Float64 F] [OfScientific F] (f : formatter)
    (b name : GoString) (m : Histogram F) (pm : metric) (f' : formatter)
    (hnorm : f.normalizeMetric name metricSummary = (pm, f')) :
    f.histogram b name m =
      Outcome.mk (decide (6 ≤ (m.Percentiles [0.5, 0.75, 0.95, 0.99, 0.999, 0.9999]).length))
        { f := f'
          b := b ++ metricBlock pm (m.statFields
            ++ percentileFields (m.Percentiles [0.5, 0.75, 0.95, 0.99, 0.999, 0.9999])) } := by
  generalize hps : m.Percentiles [0.5, 0.75, 0.95, 0.99, 0.999, 0.9999] = ps
  rcases ps with _ | ⟨a1, _ | ⟨a2, _ | ⟨a3, _ | ⟨a4, _ | ⟨a5, _ | ⟨a6, rest⟩⟩⟩⟩⟩⟩ <;>
    simp [formatter.histogram, hnorm, hps, index, State.Write, Except.bind, metricBlock,
      Histogram.statFields, percentileFields, Outcome.mk]

theorem timer_cases {F : Type} [Float64 F] [OfScientific F] (f : formatter)
    (b name : GoString) (m : Timer F) (pm : metric) (f' : formatter)
    (hnorm : f.normalizeMetric name metricSummary = (pm, f')) :
    f.timer b name m =
      Outcome.mk (decide (6 ≤ (m.Percentiles [0.5, 0.75, 0.95, 0.99, 0.999, 0.9999]).length))
        { f := f'
          b := b ++ metricBlock pm (m.histogramPart.statFields
            ++ percentileFields (m.Percentiles [0.5, 0.75, 0.95, 0.99, 0.999, 0.9999])
            ++ if 6 ≤ (m.Percentiles [0.5, 0.75, 0.95, 0.99, 0.999, 0.9999]).length
                then m.rateFields else []) } := by
  generalize hps : m.Percentiles [0.5, 0.75, 0.95, 0.99, 0.999, 0.9999] = ps
  rcases ps with _ | ⟨a1, _ | ⟨a2, _ | ⟨a3, _ | ⟨a4, _ | ⟨a5, _ | ⟨a6, rest⟩⟩⟩⟩⟩⟩ <;>
    simp [formatter.timer, hnorm, hps, index, State.Write, Except.bind, metricBlock,
      Histogram.statFields, Timer.histogramPart, Timer.rateFields, percentileFields,
      Outcome.mk]

theorem resettingTimer_cases {F : Type} [Float64 F] [OfScientific F] (f : formatter)
    (b name : GoString) (m : ResettingTimer F) (pm : metric) (f' : formatter)
    (hne : m.Values ≠ [])
    (hnorm : f.normalizeMetric name metricSummary = (pm, f')) :
    f.resettingTimer b name m =
      Outcome.mk (decide (3 ≤ (m.Percentiles [50.0, 95.0, 99.0]).length))
        { f := f'
          b := b ++ metricBlock pm (m.headFields hne
            ++ resettingPercentileFields (m.Percentiles [50.0, 95.0, 99.0])) } := by
  have hlast := getElem?_last m.Values hne
  have hfirst := getElem?_first m.Values hne
  generalize hps : m.Percentiles [50.0, 95.0, 99.0] = ps
  rcases ps with _ | ⟨a1, _ | ⟨a2, _ | ⟨a3, rest⟩⟩⟩ <;>
    simp [formatter.resettingTimer, hnorm, hps, index, State.Write, Except.bind, metricBlock,
      ResettingTimer.headFields, resettingPercentileFields, Outcome.mk, hlast, hfirst, hne]

theorem metricBlock_int64 {F G : Type} [Float64 F] [Float64 G] (pm : metric) (tag : String)
    (v : Int) :
    metricBlock pm [(tag, (Value.int64 v : Value F))]
      = metricBlock pm [(tag, (Value.int64 v : Value G))] := by
  simp [metricBlock, keyTagValue_eq, Value.fmtV]

theorem Outcome.mk_state (r : Bool) (st : State) : (Outcome.mk r st).state = st := by
  cases r <;> rfl

theorem Outcome.mk_returned (r : Bool) (st : State) : (Outcome.mk r st).returned = r := by
  cases r <;> rfl

theorem renderEntry_eq {F : Type} [Float64 F] [OfScientific F] (f : formatter)
    (b name : GoString) (i : Metric F) :
    renderEntry f b name i
      = Outcome.mk i.returns { f := i.after f name, b := b ++ i.block f name } := by
  cases i with
  | counter m =>
    simp only [renderEntry, counter_eq f b name m _ _ (normalizeMetric_pair f name metricGauage),
      metricBlock_int64 (F := Empty) (G := F)]
    rfl
  | gauge m =>
    simp only [renderEntry, gauge_eq f b name m _ _ (normalizeMetric_pair f name metricGauage),
      metricBlock_int64 (F := Empty) (G := F)]
    rfl
  | gaugeFloat64 m =>
    simp only [renderEntry,
      gaugeFloat64_eq f b name m _ _ (normalizeMetric_pair f name metricGauage)]
    rfl
  | histogram m =>
    simp only [renderEntry,
      histogram_cases f b name m _ _ (normalizeMetric_pair f name metricSummary)]
    rfl
  | meter m =>
    simp only [renderEntry, meter_eq f b name m _ _ (normalizeMetric_pair f name metricGauage)]
    rfl
  | timer m =>
    simp only [renderEntry, timer_cases f b name m _ _ (normalizeMetric_pair f name metricSummary)]
    rfl
  | resettingTimer m =>
    by_cases hne : m.Values = []
    · simp [renderEntry, resettingTimer_empty f b name m hne, Metric.returns, Metric.after,
        Metric.block, Metric.declared, hne, Outcome.mk]
    · have hlen : ¬ m.Values.length ≤ 0 := by
        have := List.length_pos.mpr hne
        omega
      simp [renderEntry,
        resettingTimer_cases f b name m _ _ hne (normalizeMetric_pair f name metricSummary),
        Metric.returns, Metric.after, Metric.block, Metric.declared, Metric.fields, hne, hlen]
  | other =>
    simp [renderEntry, Metric.returns, Metric.after, Metric.block, Metric.declared, Outcome.mk]

/-! ### Scrape assembly -/

theorem entryBytes_eq {F : Type} [Float64 F] [OfScientific F] (f : formatter)
    (name : GoString) (i : Metric F) : entryBytes f name i = i.block f name := by
  have h : entryBytes f name i = (renderEntry f [] name i).state.b := by cases i <;> rfl
  rw [h, renderEntry_eq, Outcome.mk_state]
  simp

theorem entryCache_eq {F : Type} [Float64 F] [OfScientific F] (f : formatter)
    (name : GoString) (i : Metric F) : entryCache f name i = i.after f name := by
  have h : entryCache f name i = (renderEntry f [] name i).state.f := by cases i <;> rfl
  rw [h, renderEntry_eq, Outcome.mk_state]

theorem returns_of_contract {F : Type} [OfScientific F] (i : Metric F)
    (h : i.meetsContract) : i.returns = true := by
  cases i <;> simp [Metric.meetsContract] at h <;> simp [Metric.returns, h]

theorem Each_eq {F : Type} [Float64 F] [OfScientific F] (reg : List (GoString × Metric F))
    (f : formatter) (b : GoString) (hreg : ∀ e ∈ reg, e.2.returns = true) :
    Each { f := f, b := b } reg
      = .ok { f := scrapeCache f reg, b := b ++ scrapeBody f reg } := by
  induction reg generalizing f b with
  | nil => simp [Each, scrapeCache, scrapeBody]
  | cons e rest ih =>
    obtain ⟨name, i⟩ := e
    have hi : i.returns = true := hreg (name, i) (List.mem_cons_self _ _)
    have hrest : ∀ e ∈ rest, e.2.returns = true := fun e he => hreg e (List.mem_cons_of_mem _ he)
    simp only [Each, renderEntry_eq, hi, Outcome.mk, if_true]
    rw [ih _ _ hrest]
    simp [scrapeCache, scrapeBody, entryBytes_eq, entryCache_eq]

/-- C11. Scrape assembly: for a registry that meets its contract, the handler
returns a response whose body is the concatenation, in iteration order, of what
the render routine matching each entry's kind appends, each on the formatter
the entries before it left. An entry of another type adds no byte and leaves
the cache as it was, and an empty registry gives an empty body. -/
theorem handler_body {F : Type} [Float64 F] [OfScientific F] (f : formatter)
    (reg : List (GoString × Metric F)) (hreg : ∀ e ∈ reg, e.2.meetsContract) :
    (∃ f' r, handler f reg = .ok (f', r) ∧ r.body = scrapeBody f reg ∧
      f' = scrapeCache f reg) ∧
    (∀ b name, renderEntry f b name (Metric.other : Metric F) = .ok { f := f, b := b }) ∧
    (∀ name rest, scrapeBody f ((name, (Metric.other : Metric F)) :: rest) = scrapeBody f rest
      ∧ scrapeCache f ((name, (Metric.other : Metric F)) :: rest) = scrapeCache f rest) ∧
    (∃ r, handler f ([] : List (GoString × Metric F)) = .ok (f, r) ∧ r.body = []) := by
  refine ⟨?_, fun b name => rfl, fun name rest => ⟨rfl, rfl⟩, ?_⟩
  · have h := Each_eq reg f [] fun e he => returns_of_contract e.2 (hreg e he)
    simp only [handler, h]
    exact ⟨_, _, rfl, by simp, rfl⟩
  · exact ⟨_, rfl, rfl⟩

/-- Witness of C11: the sample registry scraped on a new formatter. -/
theorem handler_body_witness :
    ∃ f' r, handler newFormatter sampleRegistry = .ok (f', r) ∧
      r.body = scrapeBody newFormatter sampleRegistry ∧
      f' = scrapeCache newFormatter sampleRegistry :=
  (handler_body newFormatter sampleRegistry (by
    intro e he
    simp only [sampleRegistry, List.mem_cons, List.mem_singleton, List.not_mem_nil,
      or_false] at he
    rcases he with rfl | rfl | rfl | rfl <;>
      simp [Metric.meetsContract, emptyResettingTimer, sampleHistogram])).1

/-- C12. Meter rendering: for a name not yet cached, `formatter.meter` appends
the header block of type `gauage`, then exactly the 5 value lines tagged count,
m1, m5, m15, mean, carrying `Count`, `Rate1`, `Rate5`, `Rate15` and `RateMean`;
the mean rate is tagged `mean`, not `meanrate` as for a timer. -/
theorem meter_renders {F : Type} [Float64 F] (f : formatter) (b name : GoString)
    (m : Meter F) (hfresh : f.metrics.get name = none) (hcount : isInt64 m.Count) :
    (f.meter b name m).b = b ++ wireBlock (sanitize name) "gauage".toList
      [("count", decimal m.Count), ("m1", Float64.fmtFloat m.Rate1),
       ("m5", Float64.fmtFloat m.Rate5), ("m15", Float64.fmtFloat m.Rate15),
       ("mean", Float64.fmtFloat m.RateMean)] := by
  rw [meter_eq f b name m _ _ (normalizeMetric_fresh f name metricGauage hfresh)]
  simp [metricBlock, newMetric_header, keyTagValue_eq, newMetric_key, newMetric_mtype,
    Value.fmtV, fmtInteger_signed _ hcount, wireBlock, metricGauage]

/-- Witness of C12: the sample meter under the name `net/in` on a new
formatter and an empty buffer. -/
theorem meter_renders_witness :
    (newFormatter.meter [] "net/in".toList sampleMeter).b
      = [] ++ wireBlock (sanitize "net/in".toList) "gauage".toList
        [("count", decimal 12), ("m1", Float64.fmtFloat (1 : ℚ)),
         ("m5", Float64.fmtFloat (2 : ℚ)), ("m15", Float64.fmtFloat (3 : ℚ)),
         ("mean", Float64.fmtFloat (5 : ℚ))] :=
  meter_renders newFormatter [] "net/in".toList sampleMeter rfl (by decide)

/-! ### Concurrent calls -/

theorem Call.step_ok (ms : MetricMap) (c : Call) (h : c.ok) : (c.step ms).2.ok := by
  obtain ⟨k, t, pc, n⟩ := c
  cases pc with
  | start =>
    simp only [Call.ok] at h
    cases hg : ms.get k <;> simp [Call.step, Call.ok, hg, h]
  | missed =>
    simp only [Call.ok] at h
    simp [Call.step, Call.ok, h]
  | built m =>
    simp only [Call.ok] at h
    cases hg : ms.get k <;> simp [Call.step, Call.ok, hg, h]
  | done m => simpa [Call.step] using h

theorem Call.step_mkey (ms : MetricMap) (c : Call) : (c.step ms).2.mkey = c.mkey := by
  obtain ⟨k, t, pc, n⟩ := c
  cases pc with
  | start => cases hg : ms.get k <;> simp [Call.step, hg]
  | missed => simp [Call.step]
  | built m => cases hg : ms.get k <;> simp [Call.step, hg]
  | done m => simp [Call.step]

theorem Call.step_mono (ms : MetricMap) (c : Call) (k : GoString) (m : metric)
    (h : ms.get k = some m) : (c.step ms).1.get k = some m := by
  obtain ⟨k0, t, pc, n⟩ := c
  cases pc with
  | start => cases hg : ms.get k0 <;> simpa [Call.step, hg] using h
  | missed => simpa [Call.step] using h
  | built m0 =>
    cases hg : ms.get k0 with
    | some m' => simpa [Call.step, hg] using h
    | none =>
      have hk : k ≠ k0 := by
        intro e
        rw [e, hg] at h
        exact Option.noConfusion h
      simpa [Call.step, hg, MetricMap.get_set_other ms k0 k m0 hk] using h
  | done m0 => simpa [Call.step] using h

theorem Call.step_done (ms : MetricMap) (c : Call) (m : metric)
    (hdone : c.pc = .done m → ms.get c.mkey = some m)
    (h : (c.step ms).2.pc = .done m) : (c.step ms).1.get c.mkey = some m := by
  obtain ⟨k, t, pc, n⟩ := c
  cases pc with
  | start =>
    cases hg : ms.get k with
    | some m' =>
      simp only [Call.step, hg, Pc.done.injEq] at h
      simpa [Call.step, hg] using h
    | none => simp [Call.step, hg] at h
  | missed => simp [Call.step] at h
  | built m0 =>
    cases hg : ms.get k with
    | some m' =>
      simp only [Call.step, hg, Pc.done.injEq] at h
      simpa [Call.step, hg] using h
    | none =>
      simp only [Call.step, hg, Pc.done.injEq] at h
      subst h
      simpa [Call.step, hg] using MetricMap.get_set_self ms k m0
  | done m0 =>
    simp only [Call.step] at h ⊢
    exact hdone h

theorem Call.step_news (ms : MetricMap) (c : Call) : c.news ≤ (c.step ms).2.news := by
  obtain ⟨k, t, pc, n⟩ := c
  cases pc with
  | start => cases hg : ms.get k <;> simp [Call.step, hg]
  | missed => simp [Call.step]
  | built m => cases hg : ms.get k <;> simp [Call.step, hg]
  | done m => simp [Call.step]

theorem Call.step_insert (ms : MetricMap) (c : Call) (k : GoString) (hc : c.ok)
    (h0 : ms.get k = none) (h1 : (c.step ms).1.get k ≠ none) : 1 ≤ (c.step ms).2.news := by
  obtain ⟨k0, t, pc, n⟩ := c
  cases pc with
  | start => cases hg : ms.get k0 <;> simp [Call.step, hg, h0] at h1
  | missed => simp [Call.step, h0] at h1
  | built m =>
    simp only [Call.ok] at hc
    cases hg : ms.get k0 <;> simp [Call.step, hg, hc]
  | done m => simp [Call.step, h0] at h1

theorem mem_set_or {α : Type} (l : List α) (i : Nat) (x y : α) (hx : x ∈ l) :
    x ∈ l.set i y ∨ l[i]? = some x := by
  obtain ⟨j, hj⟩ := List.mem_iff_getElem?.mp hx
  by_cases hij : i = j
  · right
    rw [hij]
    exact hj
  · left
    apply List.getElem?_mem (n := j)
    rw [List.getElem?_set_ne hij]
    exact hj

theorem sum_news_le (l : List Call) (h : ∀ c ∈ l, c.news ≤ 1) :
    (l.map fun c => c.news).sum ≤ l.length := by
  induction l with
  | nil => simp
  | cons c rest ih =>
    have h1 := h c (List.mem_cons_self _ _)
    have h2 := ih fun x hx => h x (List.mem_cons_of_mem _ hx)
    simp only [List.map_cons, List.sum_cons, List.length_cons]
    omega

theorem one_le_sum_news (l : List Call) (c : Call) (hc : c ∈ l) (h : 1 ≤ c.news) :
    1 ≤ (l.map fun c => c.news).sum := by
  induction l with
  | nil => simp at hc
  | cons x rest ih =>
    simp only [List.map_cons, List.sum_cons]
    rcases List.mem_cons.mp hc with rfl | hmem
    · omega
    · have := ih hmem
      omega

theorem Call.ok_news (c : Call) (h : c.ok) : c.news ≤ 1 := by
  obtain ⟨k, t, pc, n⟩ := c
  cases pc <;> simp only [Call.ok] at h <;> show n ≤ 1 <;> omega

theorem SysInv.step (ms0 : MetricMap) (n : Nat) (s : Sys) (i : Nat) (h : SysInv ms0 n s) :
    SysInv ms0 n (s.step i) := by
  unfold Sys.step
  cases hc : s.calls[i]? with
  | none => exact h
  | some c =>
    have hmem : c ∈ s.calls := List.getElem?_mem hc
    have hlt : i < s.calls.length := by
      rcases Nat.lt_or_ge i s.calls.length with hlt | hge
      · exact hlt
      · rw [List.getElem?_eq_none hge] at hc
        exact Option.noConfusion hc
    have hnew : (c.step s.metrics).2 ∈ s.calls.set i (c.step s.metrics).2 :=
      List.mem_set _ _ hlt _
    refine ⟨?_, ?_, ?_, ?_, ?_⟩
    · simpa using h.len
    · intro x hx
      rcases List.mem_or_eq_of_mem_set hx with hx | rfl
      · exact h.ok x hx
      · exact Call.step_ok _ _ (h.ok c hmem)
    · intro x hx m hdone
      rcases List.mem_or_eq_of_mem_set hx with hx | rfl
      · exact Call.step_mono _ _ _ _ (h.done x hx m hdone)
      · rw [Call.step_mkey]
        exact Call.step_done _ _ _ (h.done c hmem m) hdone
    · intro k m hk
      exact Call.step_mono _ _ _ _ (h.mono k m hk)
    · intro k hk0 hk1
      cases hg : s.metrics.get k with
      | none => exact ⟨_, hnew, Call.step_insert _ _ k (h.ok c hmem) hg hk1⟩
      | some m =>
        obtain ⟨x, hx, hx1⟩ := h.built k hk0 (by rw [hg]; exact Option.noConfusion)
        rcases mem_set_or s.calls i x (c.step s.metrics).2 hx with hin | hat
        · exact ⟨x, hin, hx1⟩
        · have hxc : x = c := Option.some.inj (hat.symm.trans hc)
          subst hxc
          exact ⟨_, hnew, le_trans hx1 (Call.step_news _ _)⟩

theorem SysInv.run (ms0 : MetricMap) (n : Nat) (sched : List Nat) (s : Sys)
    (h : SysInv ms0 n s) : SysInv ms0 n (s.run sched) := by
  induction sched generalizing s with
  | nil => exact h
  | cons i rest ih => exact ih _ (SysInv.step ms0 n s i h)

theorem SysInv.init (ms0 : MetricMap) (args : List (GoString × GoString)) :
    SysInv ms0 args.length
      { metrics := ms0, calls := args.map fun a => Call.init a.1 a.2 } := by
  refine ⟨by simp, ?_, ?_, fun k m h => h, fun k h0 h1 => absurd h0 h1⟩
  · intro c hc
    obtain ⟨a, _, rfl⟩ := List.mem_map.mp hc
    simp [Call.init, Call.ok]
  · intro c hc m hdone
    obtain ⟨a, _, rfl⟩ := List.mem_map.mp hc
    simp [Call.init] at hdone

set_option maxRecDepth 100000 in
/-- C13 as stated fails: two concurrent calls for the same name on an empty
cache, stepped in turn, both miss in the read-locked lookup and both run
`newMetric`: two metric keys are constructed, not one, although both calls
return the one that was stored. -/
theorem two_calls_construct_twice :
    (twoCalls.run [0, 1, 0, 1, 0, 1]).constructed = 2 ∧
    (twoCalls.run [0, 1, 0, 1, 0, 1]).constructed ≠ 1 ∧
    (twoCalls.run [0, 1, 0, 1, 0, 1]).calls.map (fun c => c.pc)
      = [.done (newMetric "a".toList metricGauage), .done (newMetric "a".toList metricGauage)] ∧
    (twoCalls.run [0, 1, 0, 1, 0, 1]).metrics
      = [("a".toList, newMetric "a".toList metricGauage)] := by
  decide

/-- C13, amended. In every interleaving of concurrent `normalizeMetric` calls:
a call that returned holds the metric key the cache stores under its name, so
all callers of a name receive the same key; what the cache stored it keeps;
each call constructs at most one key, so at most as many keys are constructed
as there are calls, and at least one once a name that was not cached is
stored. -/
theorem concurrent_resolve (ms0 : MetricMap) (args : List (GoString × GoString))
    (sched : List Nat) :
    (∀ c ∈ (concurrentRun ms0 args sched).calls, ∀ m, c.pc = .done m →
      (concurrentRun ms0 args sched).metrics.get c.mkey = some m) ∧
    (∀ c1 ∈ (concurrentRun ms0 args sched).calls,
      ∀ c2 ∈ (concurrentRun ms0 args sched).calls, ∀ m1 m2,
      c1.mkey = c2.mkey → c1.pc = .done m1 → c2.pc = .done m2 → m1 = m2) ∧
    (∀ k m, ms0.get k = some m → (concurrentRun ms0 args sched).metrics.get k = some m) ∧
    (∀ c ∈ (concurrentRun ms0 args sched).calls, c.news ≤ 1) ∧
    (concurrentRun ms0 args sched).constructed ≤ args.length ∧
    (∀ k, ms0.get k = none → (concurrentRun ms0 args sched).metrics.get k ≠ none →
      1 ≤ (concurrentRun ms0 args sched).constructed) := by
  have h := SysInv.run ms0 args.length sched _ (SysInv.init ms0 args)
  have hnews : ∀ c ∈ (concurrentRun ms0 args sched).calls, c.news ≤ 1 :=
    fun c hc => Call.ok_news c (h.ok c hc)
  refine ⟨h.done, ?_, h.mono, hnews, ?_, ?_⟩
  · intro c1 h1 c2 h2 m1 m2 hk hd1 hd2
    have e1 := h.done c1 h1 m1 hd1
    have e2 := h.done c2 h2 m2 hd2
    rw [hk, e2] at e1
    exact (Option.some.inj e1).symm
  · have hsum := sum_news_le _ hnews
    have hlen : (concurrentRun ms0 args sched).calls.length = args.length := h.len
    rw [hlen] at hsum
    exact hsum
  · intro k h0 h1
    obtain ⟨c, hc, hc1⟩ := h.built k h0 h1
    exact one_le_sum_news _ c hc hc1

/-! ### Failure and totality -/

theorem wireHeader_ne_nil (key type : GoString) : wireHeader key type ≠ [] := by
  simp [wireHeader]

theorem metricBlock_new_ne_nil {F : Type} [Float64 F] (name t : GoString)
    (fields : List (String × Value F)) : metricBlock (newMetric name t) fields ≠ [] := by
  intro h
  have hh := newMetric_header name t
  simp only [metricBlock, List.append_eq_nil] at h
  rw [hh] at h
  exact wireHeader_ne_nil _ _ h.1

/-- C14 as stated fails: on a new formatter and an empty buffer, the
histogram whose percentile function returns three results makes
`formatter.histogram` panic, and the buffer then holds bytes: the header, the
six statistic lines and three percentile lines were appended before the
panic. -/
theorem histogram_panics_after_writing :
    ∃ st, newFormatter.histogram [] "h".toList shortHistogram = .error st ∧ st.b ≠ [] ∧
      st.b = metricBlock (newMetric "h".toList metricSummary)
        (shortHistogram.statFields ++
          [("p50", Value.float64 (0.5 : ℚ)), ("p75", Value.float64 (0.75 : ℚ)),
           ("p95", Value.float64 (0.95 : ℚ))]) := by
  have h := histogram_cases newFormatter [] "h".toList shortHistogram _ _
    (normalizeMetric_fresh newFormatter "h".toList metricSummary rfl)
  refine ⟨_, h, ?_, ?_⟩
  · simpa using metricBlock_new_ne_nil _ _ _
  · simp [shortHistogram, percentileFields]

theorem normalizeMetric_get_self (f : formatter) (k t : GoString) :
    (f.normalizeMetric k t).2.metrics.get k = some (f.normalizeMetric k t).1 := by
  cases h : f.metrics.get k with
  | some m =>
    rw [normalizeMetric_cached f k t m h]
    exact h
  | none =>
    rw [normalizeMetric_fresh f k t h]
    exact MetricMap.get_set_self _ _ _

/-- C14, amended. For every name, formatter and histogram snapshot, with `ps`
the results of the percentile request: when `ps` has six results or more,
`formatter.histogram` returns and has appended the header and 12 value lines;
when `ps` has fewer, it panics after having appended the header, the six
statistic lines and one percentile line per result. In both cases the name was
resolved first: the formatter is the one `normalizeMetric` leaves, its cache
stores under the name the metric key whose header and lines were written, a
name that had no entry has the new `summary` key, and a name that had one keeps
the formatter as it was. It panics if and only if `ps` has fewer than six
results. -/
theorem histogram_returns_or_panics {F : Type} [Float64 F] [OfScientific F] (f : formatter)
    (b name : GoString) (m : Histogram F) :
    (6 ≤ (m.Percentiles [0.5, 0.75, 0.95, 0.99, 0.999, 0.9999]).length →
      ∃ st, f.histogram b name m = .ok st ∧
        st.b = b ++ metricBlock (f.normalizeMetric name metricSummary).1
          (m.statFields
            ++ percentileFields (m.Percentiles [0.5, 0.75, 0.95, 0.99, 0.999, 0.9999])) ∧
        (m.statFields
            ++ percentileFields (m.Percentiles [0.5, 0.75, 0.95, 0.99, 0.999, 0.9999])).length
          = 12 ∧
        st.f = (f.normalizeMetric name metricSummary).2 ∧
        st.f.metrics.get name = some (f.normalizeMetric name metricSummary).1 ∧
        (f.metrics.get name = none →
          st.f.metrics.get name = some (newMetric name metricSummary)) ∧
        (∀ pm, f.metrics.get name = some pm → st.f = f)) ∧
    ((m.Percentiles [0.5, 0.75, 0.95, 0.99, 0.999, 0.9999]).length < 6 →
      ∃ st, f.histogram b name m = .error st ∧
        st.b = b ++ metricBlock (f.normalizeMetric name metricSummary).1
          (m.statFields
            ++ percentileFields (m.Percentiles [0.5, 0.75, 0.95, 0.99, 0.999, 0.9999])) ∧
        (m.statFields
            ++ percentileFields (m.Percentiles [0.5, 0.75, 0.95, 0.99, 0.999, 0.9999])).length
          = 6 + (m.Percentiles [0.5, 0.75, 0.95, 0.99, 0.999, 0.9999]).length ∧
        st.f = (f.normalizeMetric name metricSummary).2 ∧
        st.f.metrics.get name = some (f.normalizeMetric name metricSummary).1 ∧
        (f.metrics.get name = none →
          st.f.metrics.get name = some (newMetric name metricSummary)) ∧
        (∀ pm, f.metrics.get name = some pm → st.f = f)) ∧
    ((∃ st, f.histogram b name m = .error st) ↔
      (m.Percentiles [0.5, 0.75, 0.95, 0.99, 0.999, 0.9999]).length < 6) := by
  have h := histogram_cases f b name m _ _ (normalizeMetric_pair f name metricSummary)
  have hself := normalizeMetric_get_self f name metricSummary
  have hfresh : f.metrics.get name = none →
      (f.normalizeMetric name metricSummary).2.metrics.get name
        = some (newMetric name metricSummary) := by
    intro h0
    rw [normalizeMetric_fresh f name metricSummary h0]
    exact MetricMap.get_set_self _ _ _
  have hcached : ∀ pm, f.metrics.get name = some pm →
      (f.normalizeMetric name metricSummary).2 = f := by
    intro pm h0
    rw [normalizeMetric_cached f name metricSummary pm h0]
  refine ⟨?_, ?_, ?_⟩
  · intro h6
    rw [h, decide_eq_true h6]
    refine ⟨_, rfl, rfl, ?_, rfl, hself, hfresh, hcached⟩
    simp [Histogram.statFields, percentileFields]
    omega
  · intro h6
    have hn : ¬ 6 ≤ (m.Percentiles [0.5, 0.75, 0.95, 0.99, 0.999, 0.9999]).length := by omega
    rw [h, decide_eq_false hn]
    refine ⟨_, rfl, rfl, ?_, rfl, hself, hfresh, hcached⟩
    simp [Histogram.statFields, percentileFields]
    omega
  · rw [h]
    by_cases h6 : 6 ≤ (m.Percentiles [0.5, 0.75, 0.95, 0.99, 0.999, 0.9999]).length
    · simp [Outcome.mk, h6]
    · simp [Outcome.mk, h6]
      omega

/-- Witness of C14, amended: the histogram with three percentile results, on a
new formatter: the call panics with nine lines written and the name stored in
the cache. -/
theorem histogram_returns_or_panics_witness :
    (shortHistogram.Percentiles [0.5, 0.75, 0.95, 0.99, 0.999, 0.9999]).length < 6 ∧
    ∃ st, newFormatter.histogram [] "h".toList shortHistogram = .error st ∧
      st.b = [] ++ metricBlock (newFormatter.normalizeMetric "h".toList metricSummary).1
        (shortHistogram.statFields
          ++ percentileFields
            (shortHistogram.Percentiles [0.5, 0.75, 0.95, 0.99, 0.999, 0.9999])) ∧
      (shortHistogram.statFields
          ++ percentileFields
            (shortHistogram.Percentiles [0.5, 0.75, 0.95, 0.99, 0.999, 0.9999])).length
        = 6 + (shortHistogram.Percentiles [0.5, 0.75, 0.95, 0.99, 0.999, 0.9999]).length ∧
      st.f = (newFormatter.normalizeMetric "h".toList metricSummary).2 ∧
      st.f.metrics.get "h".toList
        = some (newFormatter.normalizeMetric "h".toList metricSummary).1 ∧
      (newFormatter.metrics.get "h".toList = none →
        st.f.metrics.get "h".toList = some (newMetric "h".toList metricSummary)) ∧
      (∀ pm, newFormatter.metrics.get "h".toList = some pm → st.f = newFormatter) :=
  ⟨by simp [shortHistogram],
    (histogram_returns_or_panics newFormatter [] "h".toList shortHistogram).2.1
      (by simp [shortHistogram])⟩

/-- C15. Rendering is total under the registry contract: when the percentile
function returns as many results as requested, `formatter.histogram`,
`formatter.timer` and `formatter.resettingTimer` return for every name,
formatter, buffer and snapshot, and so does the render routine of every
registered metric. The reads of the last and of the first value of a resetting
timer are in bounds whenever they are reached, that is when there is a value;
with a single value both give that value. -/
theorem render_total_under_contract {F : Type} [Float64 F] [OfScientific F] (f : formatter)
    (b name : GoString) :
    (∀ m : Histogram F, (∀ req, (m.Percentiles req).length = req.length) →
      ∃ st, f.histogram b name m = .ok st) ∧
    (∀ m : Timer F, (∀ req, (m.Percentiles req).length = req.length) →
      ∃ st, f.timer b name m = .ok st) ∧
    (∀ m : ResettingTimer F, (∀ req, (m.Percentiles req).length = req.length) →
      ∃ st, f.resettingTimer b name m = .ok st) ∧
    (∀ i : Metric F, i.meetsContract → ∃ st, renderEntry f b name i = .ok st) ∧
    (∀ (m : ResettingTimer F) (hne : m.Values ≠ []) (st : State),
      index st m.Values (m.Values.length - 1) = .ok (m.Values.getLast hne) ∧
      index st m.Values 0 = .ok (m.Values.head hne)) ∧
    (∀ (m : ResettingTimer F) (v : Int) (st : State), m.Values = [v] →
      index st m.Values (m.Values.length - 1) = .ok v ∧ index st m.Values 0 = .ok v) := by
  have hentry : ∀ i : Metric F, i.meetsContract → ∃ st, renderEntry f b name i = .ok st := by
    intro i hi
    rw [renderEntry_eq, returns_of_contract i hi]
    exact ⟨_, rfl⟩
  refine ⟨fun m hm => hentry (.histogram m) hm, fun m hm => hentry (.timer m) hm,
    fun m hm => hentry (.resettingTimer m) hm, hentry, ?_, ?_⟩
  · intro m hne st
    exact ⟨index_of_get st _ _ _ (getElem?_last m.Values hne),
      index_of_get st _ _ _ (getElem?_first m.Values hne)⟩
  · intro m v st hv
    rw [hv]
    exact ⟨rfl, rfl⟩

/-- Witness of C15: the sample histogram and the resetting timer with a single
value meet the contract and are rendered without a panic. -/
theorem render_total_under_contract_witness :
    (∃ st, newFormatter.histogram [] "h".toList sampleHistogram = .ok st) ∧
    (∃ st, newFormatter.resettingTimer [] "rt".toList singleResettingTimer = .ok st) :=
  ⟨(render_total_under_contract newFormatter [] "h".toList).1 sampleHistogram
      (fun req => rfl),
    (render_total_under_contract newFormatter [] "rt".toList).2.2.1 singleResettingTimer
      (fun req => by simp [singleResettingTimer])⟩

/-! ### Sequences of calls -/

theorem MetricMap.length_set (m : MetricMap) (k : GoString) (v : metric) :
    (m.set k v).length ≤ m.length + 1 := by
  induction m with
  | nil => simp [MetricMap.set]
  | cons e rest ih =>
    obtain ⟨k', v'⟩ := e
    by_cases h : k' = k
    · simp [MetricMap.set, h]
    · simp [MetricMap.set, h]
      omega

theorem normalizeMetric_other (f : formatter) (k t n : GoString) (hn : n ≠ k) :
    (f.normalizeMetric k t).2.metrics.get n = f.metrics.get n := by
  cases h : f.metrics.get k with
  | some m => rw [normalizeMetric_cached f k t m h]
  | none =>
    rw [normalizeMetric_fresh f k t h]
    exact MetricMap.get_set_other _ _ _ _ hn

theorem normalizeMetric_mono (f : formatter) (k t n : GoString) (m : metric)
    (hn : f.metrics.get n = some m) : (f.normalizeMetric k t).2.metrics.get n = some m := by
  cases h : f.metrics.get k with
  | some m' => rw [normalizeMetric_cached f k t m' h]; exact hn
  | none =>
    have hne : n ≠ k := by
      intro e
      rw [e, h] at hn
      exact Option.noConfusion hn
    rw [normalizeMetric_other f k t n hne]
    exact hn

theorem normalizeMetric_length (f : formatter) (k t : GoString) :
    (f.normalizeMetric k t).2.metrics.length ≤ f.metrics.length + 1 := by
  cases h : f.metrics.get k with
  | some m =>
    rw [normalizeMetric_cached f k t m h]
    exact Nat.le_succ _
  | none =>
    rw [normalizeMetric_fresh f k t h]
    exact MetricMap.length_set _ _ _

theorem normalizeMetric_inv (P : GoString → metric → Prop) (f : formatter) (k t : GoString)
    (hf : ∀ n m, f.metrics.get n = some m → P n m) (hnew : P k (newMetric k t)) :
    P k (f.normalizeMetric k t).1 ∧
    ∀ n m, (f.normalizeMetric k t).2.metrics.get n = some m → P n m := by
  cases h : f.metrics.get k with
  | some m' =>
    rw [normalizeMetric_cached f k t m' h]
    exact ⟨hf k m' h, hf⟩
  | none =>
    rw [normalizeMetric_fresh f k t h]
    refine ⟨hnew, ?_⟩
    intro n m hn
    by_cases hnk : n = k
    · subst hnk
      rw [MetricMap.get_set_self] at hn
      rw [← Option.some.inj hn]
      exact hnew
    · rw [MetricMap.get_set_other _ _ _ _ hnk] at hn
      exact hf n m hn

theorem Op.apply_f {F : Type} [Float64 F] [OfScientific F] (st : State) (op : Op F) :
    (op.apply st).f =
      match op.resolves with
      | none => st.f
      | some p => (st.f.normalizeMetric p.1 p.2).2 := by
  cases op with
  | normalize k t => rfl
  | render name i =>
    simp only [Op.apply, renderEntry_eq, Outcome.mk_state, Op.resolves, Metric.after]
    cases i.declared <;> rfl

theorem Op.apply_inv {F : Type} [Float64 F] [OfScientific F] (P : GoString → metric → Prop)
    (st : State) (op : Op F) (hst : ∀ n m, st.f.metrics.get n = some m → P n m)
    (hop : ∀ k t, op.resolves = some (k, t) → P k (newMetric k t)) :
    ∀ n m, (op.apply st).f.metrics.get n = some m → P n m := by
  rw [Op.apply_f]
  cases h : op.resolves with
  | none => exact hst
  | some p => exact (normalizeMetric_inv P st.f p.1 p.2 hst (hop p.1 p.2 h)).2

theorem runOps_inv {F : Type} [Float64 F] [OfScientific F] (P : GoString → metric → Prop)
    (ops : List (Op F)) (st : State) (hst : ∀ n m, st.f.metrics.get n = some m → P n m)
    (hops : ∀ op ∈ ops, ∀ k t, op.resolves = some (k, t) → P k (newMetric k t)) :
    ∀ n m, (runOps st ops).f.metrics.get n = some m → P n m := by
  induction ops generalizing st with
  | nil => exact hst
  | cons op rest ih =>
    exact ih _ (Op.apply_inv P st op hst (hops op (List.mem_cons_self _ _)))
      fun op' h' => hops op' (List.mem_cons_of_mem _ h')

theorem Op.apply_mono {F : Type} [Float64 F] [OfScientific F] (st : State) (op : Op F)
    (n : GoString) (m : metric) (h : st.f.metrics.get n = some m) :
    (op.apply st).f.metrics.get n = some m := by
  rw [Op.apply_f]
  cases op.resolves with
  | none => exact h
  | some p => exact normalizeMetric_mono _ _ _ _ _ h

theorem runOps_mono {F : Type} [Float64 F] [OfScientific F] (ops : List (Op F)) (st : State)
    (n : GoString) (m : metric) (h : st.f.metrics.get n = some m) :
    (runOps st ops).f.metrics.get n = some m := by
  induction ops generalizing st with
  | nil => exact h
  | cons op rest ih => exact ih _ (Op.apply_mono st op n m h)

/-- C16. Key and type stability: from a new formatter, after any sequence of
render and `normalizeMetric` calls a name has a cache entry, then after any
further sequence of such calls the cache maps the name to the same metric (the
same key, type and header bytes). A `normalizeMetric` call changes no entry of
another name, keeps every entry there is, and adds at most one entry. -/
theorem cache_entries_stable {F : Type} [Float64 F] [OfScientific F] (b : GoString)
    (ops later : List (Op F)) (n : GoString) (m : metric)
    (h : (runOps { f := newFormatter, b := b } ops).f.metrics.get n = some m) :
    (runOps (runOps { f := newFormatter, b := b } ops) later).f.metrics.get n = some m ∧
    (∀ (f : formatter) (k t n' : GoString), n' ≠ k →
      (f.normalizeMetric k t).2.metrics.get n' = f.metrics.get n') ∧
    (∀ (f : formatter) (k t n' : GoString) (m' : metric), f.metrics.get n' = some m' →
      (f.normalizeMetric k t).2.metrics.get n' = some m') ∧
    (∀ (f : formatter) (k t : GoString),
      (f.normalizeMetric k t).2.metrics.length ≤ f.metrics.length + 1) :=
  ⟨runOps_mono later _ n m h, normalizeMetric_other, normalizeMetric_mono,
    normalizeMetric_length⟩

set_option maxRecDepth 100000 in
/-- Witness of C16: `db/reads` is rendered as a counter, then resolved as a
summary and rendered as a histogram; its entry stays the `gauage` metric. -/
theorem cache_entries_stable_witness :
    (runOps { f := newFormatter, b := [] } warmUp).f.metrics.get "db/reads".toList
      = some (newMetric "db/reads".toList metricGauage) ∧
    (runOps (runOps { f := newFormatter, b := [] } warmUp) laterCalls).f.metrics.get
        "db/reads".toList
      = some (newMetric "db/reads".toList metricGauage) :=
  ⟨by decide, (cache_entries_stable [] warmUp laterCalls "db/reads".toList
    (newMetric "db/reads".toList metricGauage) (by decide)).1⟩

theorem newMetric_consistent (k t : GoString) (ht : t = metricGauage ∨ t = metricSummary) :
    (newMetric k t).consistent k := by
  refine ⟨newMetric_key k t, ?_, ?_⟩
  · rw [newMetric_mtype]
    exact ht
  · have h := newMetric_header k t
    rw [newMetric_key, newMetric_mtype]
    exact h

theorem Metric.declared_ok {F : Type} (i : Metric F) (t : GoString)
    (h : i.declared = some t) : t = metricGauage ∨ t = metricSummary := by
  cases i with
  | resettingTimer m =>
    simp only [Metric.declared] at h
    split at h
    · exact Option.noConfusion h
    · exact Or.inr (Option.some.inj h).symm
  | other => exact Option.noConfusion h
  | counter m => exact Or.inl (Option.some.inj h).symm
  | gauge m => exact Or.inl (Option.some.inj h).symm
  | gaugeFloat64 m => exact Or.inl (Option.some.inj h).symm
  | meter m => exact Or.inl (Option.some.inj h).symm
  | histogram m => exact Or.inr (Option.some.inj h).symm
  | timer m => exact Or.inr (Option.some.inj h).symm

theorem Op.resolves_ok {F : Type} (op : Op F) (hop : op.declaredOk) (k t : GoString)
    (h : op.resolves = some (k, t)) : t = metricGauage ∨ t = metricSummary := by
  cases op with
  | normalize k' t' =>
    simp only [Op.resolves, Option.some.injEq, Prod.mk.injEq] at h
    rw [← h.2]
    exact hop
  | render name i =>
    simp only [Op.resolves, Option.map_eq_some', Prod.mk.injEq] at h
    obtain ⟨t', ht', -, rfl⟩ := h
    exact Metric.declared_ok i t' ht'

theorem metricBlock_wire {F : Type} [Float64 F] (pm : metric)
    (hh : pm.helpTypeHeader = wireHeader pm.key pm.mtype) (fields : List (String × Value F)) :
    metricBlock pm fields
      = wireBlock pm.key pm.mtype (fields.map fun p => (p.1, p.2.fmtV)) := by
  simp [metricBlock, wireBlock, metric.header, hh, keyTagValue_eq, List.map_map,
    Function.comp_def]

theorem newFormatter_inv (P : GoString → metric → Prop) :
    ∀ n m, newFormatter.metrics.get n = some m → P n m := by
  intro n m h
  exact Option.noConfusion h

/-- C17. Header/value consistency: in every formatter state reached from a new
formatter by render calls and `normalizeMetric` calls with a declared type of
the package, every cache entry stored under the raw name `n` has the sanitized
`n` as key, `gauage` or `summary` as type, and as header bytes the header block
of that key and that type. So whatever a render routine appends in such a state
is nothing at all or a block whose header lines and value lines all name the
same key, the sanitized name, and the same type. -/
theorem header_value_consistent {F : Type} [Float64 F] [OfScientific F] (b : GoString)
    (ops : List (Op F)) (hops : ∀ op ∈ ops, op.declaredOk) :
    (∀ n m, (runOps { f := newFormatter, b := b } ops).f.metrics.get n = some m →
      m.key = sanitize n ∧ (m.mtype = "gauage".toList ∨ m.mtype = "summary".toList) ∧
      m.header = "# HELP ".toList ++ m.key ++ " metric\n".toList
        ++ ("# TYPE ".toList ++ m.key ++ " ".toList ++ m.mtype ++ "\n".toList)) ∧
    (∀ (b' name : GoString) (i : Metric F),
      (i.declared = none ∧
        (renderEntry (runOps { f := newFormatter, b := b } ops).f b' name i).state.b = b') ∨
      ∃ ty, (ty = "gauage".toList ∨ ty = "summary".toList) ∧
        (renderEntry (runOps { f := newFormatter, b := b } ops).f b' name i).state.b
          = b' ++ wireBlock (sanitize name) ty (i.fields.map fun p => (p.1, p.2.fmtV))) := by
  have hinv := runOps_inv metric.consistent ops { f := newFormatter, b := b }
    (newFormatter_inv _)
    (fun op hop k t hres => newMetric_consistent k t (Op.resolves_ok op (hops op hop) k t hres))
  refine ⟨?_, ?_⟩
  · intro n m hn
    obtain ⟨hk, ht, hh⟩ := hinv n m hn
    refine ⟨hk, ht, ?_⟩
    rw [metric.header, hh]
    simp [wireHeader]
  · intro b' name i
    rw [renderEntry_eq, Outcome.mk_state]
    cases hd : i.declared with
    | none =>
      left
      simp [Metric.block, hd]
    | some t =>
      right
      obtain ⟨hk, ht, hh⟩ := (normalizeMetric_inv metric.consistent _ name t hinv
        (newMetric_consistent name t (Metric.declared_ok i t hd))).1
      refine ⟨_, ht, ?_⟩
      simp only [Metric.block, hd]
      rw [metricBlock_wire _ hh, hk]

/-- Witness of C17: the state after `db/reads` was rendered as a counter. -/
theorem header_value_consistent_witness :
    (∀ op ∈ warmUp, op.declaredOk) ∧
    (∀ n m, (runOps { f := newFormatter, b := [] } warmUp).f.metrics.get n = some m →
      m.key = sanitize n ∧ (m.mtype = "gauage".toList ∨ m.mtype = "summary".toList) ∧
      m.header = "# HELP ".toList ++ m.key ++ " metric\n".toList
        ++ ("# TYPE ".toList ++ m.key ++ " ".toList ++ m.mtype ++ "\n".toList)) :=
  ⟨fun op hop => by
      simp only [warmUp, List.mem_singleton] at hop
      subst hop
      trivial,
    (header_value_consistent [] warmUp (fun op hop => by
      simp only [warmUp, List.mem_singleton] at hop
      subst hop
      trivial)).1⟩

/-! ### Extremes of a sorted resetting timer -/

theorem sorted_head_le (l : List Int) (hne : l ≠ []) (hs : l.Sorted (· ≤ ·)) :
    ∀ v ∈ l, l.head hne ≤ v := by
  cases l with
  | nil => exact absurd rfl hne
  | cons x rest =>
    intro v hv
    rcases List.mem_cons.mp hv with rfl | hmem
    · exact le_refl _
    · exact (List.sorted_cons.mp hs).1 v hmem

theorem sorted_le_getLast (l : List Int) (hne : l ≠ []) (hs : l.Sorted (· ≤ ·)) :
    ∀ v ∈ l, v ≤ l.getLast hne := by
  induction l with
  | nil => exact absurd rfl hne
  | cons x rest ih =>
    intro v hv
    by_cases hrest : rest = []
    · subst hrest
      rcases List.mem_cons.mp hv with rfl | hmem
      · simp
      · simp at hmem
    · rw [List.getLast_cons hrest]
      have hs' := List.sorted_cons.mp hs
      rcases List.mem_cons.mp hv with rfl | hmem
      · exact hs'.1 _ (List.getLast_mem hrest)
      · exact ih hrest hs'.2 v hmem

/-- C18. For a resetting timer whose values are non-empty and sorted in
ascending order, the value on the `max` line is at least every value, the value
on the `min` line is at most every value, both are values of the sequence, and
min is at most max. The two lines are written before any percentile is read, so
this holds of the buffer whether the routine returns or not; it returns when
the percentile function gives three results. -/
theorem resettingTimer_extremes {F : Type} [Float64 F] [OfScientific F] (f : formatter)
    (b name : GoString) (m : ResettingTimer F)
    (hne : m.Values ≠ []) (hsorted : m.Values.Sorted (· ≤ ·)) :
    ∃ mx mn,
      (f.resettingTimer b name m).state.b
        = b ++ metricBlock (f.normalizeMetric name metricSummary).1
          ([("count", Value.int (m.Values.length : Int)), ("max", Value.int64 mx),
            ("mean", Value.float64 m.Mean), ("min", Value.int64 mn)]
            ++ resettingPercentileFields (m.Percentiles [50.0, 95.0, 99.0])) ∧
      ((f.resettingTimer b name m).returned
        = decide (3 ≤ (m.Percentiles [50.0, 95.0, 99.0]).length)) ∧
      mx ∈ m.Values ∧ mn ∈ m.Values ∧ (∀ v ∈ m.Values, mn ≤ v ∧ v ≤ mx) ∧ mn ≤ mx := by
  have h := resettingTimer_cases f b name m _ _ hne (normalizeMetric_pair f name metricSummary)
  refine ⟨m.Values.getLast hne, m.Values.head hne, ?_, ?_,
    List.getLast_mem hne, List.head_mem hne, ?_, ?_⟩
  · rw [h, Outcome.mk_state]
    rfl
  · rw [h, Outcome.mk_returned]
  · intro v hv
    exact ⟨sorted_head_le _ hne hsorted v hv, sorted_le_getLast _ hne hsorted v hv⟩
  · exact sorted_head_le _ hne hsorted _ (List.getLast_mem hne)

/-- Witness of C18: the resetting timer of the example, values `[1,2,2,5,9]`. -/
theorem resettingTimer_extremes_witness :
    sampleResettingTimer.Values.Sorted (· ≤ ·) ∧
    ∃ mx mn,
      (newFormatter.resettingTimer [] "rt".toList sampleResettingTimer).state.b
        = [] ++ metricBlock (newFormatter.normalizeMetric "rt".toList metricSummary).1
          ([("count", Value.int ((sampleResettingTimer.Values.length : Nat) : Int)),
            ("max", Value.int64 mx),
            ("mean", Value.float64 sampleResettingTimer.Mean), ("min", Value.int64 mn)]
            ++ resettingPercentileFields
              (sampleResettingTimer.Percentiles [50.0, 95.0, 99.0])) ∧
      ((newFormatter.resettingTimer [] "rt".toList sampleResettingTimer).returned
        = decide (3 ≤ (sampleResettingTimer.Percentiles [50.0, 95.0, 99.0]).length)) ∧
      mx ∈ sampleResettingTimer.Values ∧ mn ∈ sampleResettingTimer.Values ∧
      (∀ v ∈ sampleResettingTimer.Values, mn ≤ v ∧ v ≤ mx) ∧ mn ≤ mx :=
  ⟨by simp [sampleResettingTimer],
    resettingTimer_extremes newFormatter [] "rt".toList sampleResettingTimer
      (by simp [sampleResettingTimer]) (by simp [sampleResettingTimer])⟩

/-! ### Memoization and collisions -/

theorem Op.apply_resolves_some {F : Type} (name : GoString) (i : Metric F) (k t : GoString)
    (h : (Op.render name i).resolves = some (k, t)) : k = name ∧ i.declared = some t := by
  simp only [Op.resolves, Option.map_eq_some', Prod.mk.injEq] at h
  obtain ⟨t', ht', hk, rfl⟩ := h
  exact ⟨hk.symm, ht'⟩

/-- C19. Memoization is transparent: in every formatter state reached from a
new formatter by calls that resolve each name with one declared type only (the
type `ty` gives for it), `normalizeMetric(n, ty n)` returns a metric equal in
key, type and header bytes to the freshly built `newMetric(n, ty n)`; so every
render routine that resolves its name with that type appends the same bytes,
and returns or panics alike, on this formatter and on a new one. -/
theorem memoization_transparent {F : Type} [Float64 F] [OfScientific F]
    (ty : GoString → GoString) (b : GoString) (ops : List (Op F))
    (hops : ∀ op ∈ ops, ∀ k t, op.resolves = some (k, t) → t = ty k) :
    (∀ n,
      ((runOps { f := newFormatter, b := b } ops).f.normalizeMetric n (ty n)).1
        = newMetric n (ty n) ∧
      ((runOps { f := newFormatter, b := b } ops).f.normalizeMetric n (ty n)).1.key
        = (newMetric n (ty n)).key ∧
      ((runOps { f := newFormatter, b := b } ops).f.normalizeMetric n (ty n)).1.mtype
        = (newMetric n (ty n)).mtype ∧
      ((runOps { f := newFormatter, b := b } ops).f.normalizeMetric n (ty n)).1.header
        = (newMetric n (ty n)).header) ∧
    (∀ (b' name : GoString) (i : Metric F), (∀ t, i.declared = some t → t = ty name) →
      (renderEntry (runOps { f := newFormatter, b := b } ops).f b' name i).state.b
        = (renderEntry newFormatter b' name i).state.b ∧
      (renderEntry (runOps { f := newFormatter, b := b } ops).f b' name i).returned
        = (renderEntry newFormatter b' name i).returned) := by
  have hinv := runOps_inv (fun n m => m = newMetric n (ty n)) ops
    { f := newFormatter, b := b } (newFormatter_inv _)
    (fun op hop k t hres => by rw [hops op hop k t hres])
  have hres : ∀ n,
      ((runOps { f := newFormatter, b := b } ops).f.normalizeMetric n (ty n)).1
        = newMetric n (ty n) :=
    fun n => (normalizeMetric_inv (fun n m => m = newMetric n (ty n)) _ n (ty n) hinv rfl).1
  refine ⟨fun n => ⟨hres n, by rw [hres n], by rw [hres n], by rw [hres n]⟩, ?_⟩
  intro b' name i hi
  rw [renderEntry_eq, renderEntry_eq, Outcome.mk_state, Outcome.mk_state,
    Outcome.mk_returned, Outcome.mk_returned]
  refine ⟨?_, rfl⟩
  cases hd : i.declared with
  | none => simp [Metric.block, hd]
  | some t =>
    have ht := hi t hd
    subst ht
    simp only [Metric.block, hd]
    rw [hres name, normalizeMetric_fresh newFormatter name (ty name) rfl]

/-- Witness of C19: after `db/reads` was rendered as a counter, every name
being resolved as `gauage`. -/
theorem memoization_transparent_witness :
    (∀ op ∈ warmUp, ∀ k t, op.resolves = some (k, t) → t = metricGauage) ∧
    ((runOps { f := newFormatter, b := [] } warmUp).f.normalizeMetric "db/reads".toList
        metricGauage).1
      = newMetric "db/reads".toList metricGauage :=
  ⟨fun op hop k t h => by
      simp only [warmUp, List.mem_singleton] at hop
      subst hop
      exact ((Op.apply_resolves_some _ _ k t h).2.symm.trans rfl |> Option.some.inj),
    ((memoization_transparent (fun _ => metricGauage) [] warmUp (fun op hop k t h => by
      simp only [warmUp, List.mem_singleton] at hop
      subst hop
      exact ((Op.apply_resolves_some _ _ k t h).2.symm.trans rfl |> Option.some.inj))).1
        "db/reads".toList).1⟩

theorem sanitize_injective (s1 s2 : GoString) (h1 : '_' ∉ s1) (h2 : '_' ∉ s2)
    (h : sanitize s1 = sanitize s2) : s1 = s2 := by
  induction s1 generalizing s2 with
  | nil =>
    cases s2 with
    | nil => rfl
    | cons c rest => simp [sanitize] at h
  | cons c1 r1 ih =>
    cases s2 with
    | nil => simp [sanitize] at h
    | cons c2 r2 =>
      simp only [sanitize, List.map_cons, List.cons.injEq] at h
      have hc1 : c1 ≠ '_' := fun e => h1 (e ▸ List.mem_cons_self _ _)
      have hc2 : c2 ≠ '_' := fun e => h2 (e ▸ List.mem_cons_self _ _)
      have hr := ih r2 (fun hm => h1 (List.mem_cons_of_mem _ hm))
        (fun hm => h2 (List.mem_cons_of_mem _ hm)) h.2
      have hc : c1 = c2 := by
        have h0 := h.1
        by_cases e1 : c1 = '/'
        · by_cases e2 : c2 = '/'
          · rw [e1, e2]
          · rw [if_pos e1, if_neg e2] at h0
            exact absurd h0.symm hc2
        · by_cases e2 : c2 = '/'
          · rw [if_neg e1, if_pos e2] at h0
            exact absurd h0 hc1
          · rw [if_neg e1, if_neg e2] at h0
            exact h0
      rw [hc, hr]

set_option maxRecDepth 100000 in
theorem newMetric_collision :
    newMetric "a/b".toList metricGauage = newMetric "a_b".toList metricGauage := by
  decide

set_option maxRecDepth 100000 in
/-- C20. Sanitization collides: the raw names `a/b` and `a_b` differ and have
the same key. Rendered one after the other as counters with the same count,
they occupy two cache entries and append the same block twice, and a scrape of
a registry holding both has that block twice in its body. Restricted to raw
names with no `_`, sanitization is injective. -/
theorem sanitize_collides (c : Int) :
    "a/b".toList ≠ "a_b".toList ∧
    (newMetric "a/b".toList metricGauage).key = (newMetric "a_b".toList metricGauage).key ∧
    ((newFormatter.counter [] "a/b".toList { Count := c }).f.counter
        (newFormatter.counter [] "a/b".toList { Count := c }).b "a_b".toList
        { Count := c }).f.metrics
      = [("a/b".toList, newMetric "a/b".toList metricGauage),
         ("a_b".toList, newMetric "a_b".toList metricGauage)] ∧
    ((newFormatter.counter [] "a/b".toList { Count := c }).f.counter
        (newFormatter.counter [] "a/b".toList { Count := c }).b "a_b".toList
        { Count := c }).b
      = (newFormatter.counter [] "a/b".toList { Count := c }).b
        ++ (newFormatter.counter [] "a/b".toList { Count := c }).b ∧
    (newFormatter.counter [] "a/b".toList { Count := c }).b ≠ [] ∧
    (∃ f' r, handler newFormatter
        ([("a/b".toList, .counter { Count := c }), ("a_b".toList, .counter { Count := c })]
          : List (GoString × Metric ℚ)) = .ok (f', r) ∧
      r.body = (newFormatter.counter [] "a/b".toList { Count := c }).b
        ++ (newFormatter.counter [] "a/b".toList { Count := c }).b) ∧
    (∀ s1 s2 t1 t2 : GoString, '_' ∉ s1 → '_' ∉ s2 →
      (newMetric s1 t1).key = (newMetric s2 t2).key → s1 = s2) := by
  have h1 := counter_eq newFormatter [] "a/b".toList { Count := c } _ _
    (normalizeMetric_fresh newFormatter "a/b".toList metricGauage rfl)
  have hfresh : (formatter.mk (newFormatter.metrics.set "a/b".toList
      (newMetric "a/b".toList metricGauage))).metrics.get "a_b".toList = none := by
    decide
  have h2 := counter_eq _ ([] ++ metricBlock (newMetric "a/b".toList metricGauage)
      [("value", (Value.int64 c : Value Empty))]) "a_b".toList { Count := c } _ _
    (normalizeMetric_fresh _ "a_b".toList metricGauage hfresh)
  have hb : (newFormatter.counter [] "a/b".toList { Count := c }).b
      = metricBlock (newMetric "a/b".toList metricGauage)
          [("value", (Value.int64 c : Value Empty))] := by
    rw [h1]
    simp
  refine ⟨by decide, by decide, ?_, ?_, ?_, ?_, ?_⟩
  · rw [h1, h2]
    rfl
  · rw [h1, h2, ← newMetric_collision]
    simp
  · rw [hb]
    exact metricBlock_new_ne_nil _ _ _
  · have hreg := Each_eq
      ([("a/b".toList, .counter { Count := c }), ("a_b".toList, .counter { Count := c })]
        : List (GoString × Metric ℚ)) newFormatter [] (by
        intro e he
        simp only [List.mem_cons, List.mem_singleton, List.not_mem_nil, or_false] at he
        rcases he with rfl | rfl <;> rfl)
    simp only [handler, hreg]
    refine ⟨_, _, rfl, ?_⟩
    show [] ++ scrapeBody newFormatter _ = _
    simp only [scrapeBody, entryBytes, entryCache, List.nil_append, List.append_nil]
    have h3 := counter_eq _ [] "a_b".toList { Count := c } _ _
      (normalizeMetric_fresh _ "a_b".toList metricGauage hfresh)
    rw [h1, h3, ← newMetric_collision]
  · intro s1 s2 t1 t2 hs1 hs2 hk
    rw [newMetric_key, newMetric_key] at hk
    exact sanitize_injective s1 s2 hs1 hs2 hk

end Prometheus
